import Mathlib

/-!
Verification development for the Lanscape network-inventory tool
(src/lanscape.js). The JavaScript source is shallowly embedded: JS 32-bit
bitwise operators are modelled on `Int` with explicit reduction modulo 2^32
(`u32` models ToUint32, `i32` models ToInt32), strings are Lean `String`s
(backed by `List Char`), JS `Map`s are association lists with JS `Map`
insertion-order semantics, and every asynchronous probe result is an explicit
input value.
-/

namespace Lanscape

/-- JS ToUint32: reduce an integer to its unsigned 32-bit value. -/
def u32 (n : Int) : Int := n % (2 ^ 32 : Int)

/-- JS ToInt32: reduce an integer to its signed 32-bit value. -/
def i32 (n : Int) : Int :=
  if u32 n < 2 ^ 31 then u32 n else u32 n - 2 ^ 32

/-- JS bitwise AND on numbers (both operands coerced to 32 bits). -/
def jsAnd (a b : Int) : Int :=
  i32 (Int.ofNat ((u32 a).toNat &&& (u32 b).toNat))

/-- JS bitwise OR on numbers (both operands coerced to 32 bits). -/
def jsOr (a b : Int) : Int :=
  i32 (Int.ofNat ((u32 a).toNat ||| (u32 b).toNat))

/-- JS bitwise NOT on numbers. -/
def jsNot (a : Int) : Int := i32 (2 ^ 32 - 1 - u32 a)

/-- JS left shift: `a << s` (shift count taken mod 32, result signed 32-bit). -/
def jsShl (a : Int) (s : Nat) : Int := i32 (u32 a * 2 ^ (s % 32))

/-- JS unsigned right shift: `a >>> s` (result is the unsigned 32-bit value). -/
def jsUshr (a : Int) (s : Nat) : Int := u32 a / 2 ^ (s % 32)

/-- Whitespace recognized by JS String.prototype.trim, restricted to the
ASCII control characters that can occur in this tool's data. -/
def isJsSpace (c : Char) : Bool :=
  c == ' ' || c == '\t' || c == '\n' || c == '\r' || c == '\x0b' || c == '\x0c'

/-- Trim on character lists (both ends). -/
def jsTrimList (l : List Char) : List Char :=
  ((l.dropWhile isJsSpace).reverse.dropWhile isJsSpace).reverse

/-- JS String.prototype.trim. -/
def jsTrim (s : String) : String := String.mk (jsTrimList s.data)

/-- JS String.prototype.split with a single-character separator: always
returns at least one (possibly empty) piece. -/
def splitOnChar (sep : Char) : List Char → List (List Char)
  | [] => [[]]
  | c :: rest =>
    match splitOnChar sep rest with
    | [] => [[c]]
    | h :: t => if c = sep then [] :: h :: t else (c :: h) :: t

/-- String-valued wrapper for `splitOnChar`. -/
def splitString (sep : Char) (s : String) : List String :=
  (splitOnChar sep s.data).map String.mk

/-- Drop one trailing carriage return (the `\r?` of the line-split regex). -/
def dropTrailingCr (l : List Char) : List Char :=
  match l.getLast? with
  | some '\r' => l.dropLast
  | _ => l

/-- Strip the carriage return of every piece that was followed by a newline
(every piece but the last). -/
def stripCrs : List (List Char) → List (List Char)
  | [] => []
  | [last] => [last]
  | h :: t => dropTrailingCr h :: stripCrs t

/-- JS `content.split(/\r?\n/)`. -/
def splitLinesJs (s : String) : List String :=
  (stripCrs (splitOnChar '\n' s.data)).map String.mk

/-- Numeric value of a decimal digit character. -/
def digitVal (c : Char) : Nat := c.toNat - 48

/-- Value of a list of decimal digits. -/
def digitsToNat (l : List Char) : Nat := l.foldl (fun a c => a * 10 + digitVal c) 0

/-- JS Number() as applied to the octet tokens of a dotted quad: a decimal
digit string evaluates to its value, anything else becomes NaN, which the
subsequent bitwise coercions (ToInt32/ToUint32) send to 0. -/
def jsNumberOct (s : String) : Int :=
  if s.data.all Char.isDigit then Int.ofNat (digitsToNat s.data) else 0

/-- ipToInt from the source: split the text on dots, coerce each part with
Number, and combine with `(a << 24) | (b << 16) | (c << 8) | d`, forced
unsigned with `>>> 0`. -/
def ipToInt (ip : String) : Int :=
  let parts := (splitString '.' ip).map jsNumberOct
  jsUshr
    (jsOr
      (jsOr
        (jsOr (jsShl (parts.getD 0 0) 24) (jsShl (parts.getD 1 0) 16))
        (jsShl (parts.getD 2 0) 8))
      (parts.getD 3 0))
    0

/-- Decimal digit character. -/
def decChar (d : Nat) : Char :=
  ['0', '1', '2', '3', '4', '5', '6', '7', '8', '9'].getD d '0'

/-- Fuelled decimal rendering of a natural number (most significant first). -/
def natToCharsAux : Nat → Nat → List Char → List Char
  | 0, _, acc => acc
  | fuel + 1, n, acc =>
    if n < 10 then decChar n :: acc
    else natToCharsAux fuel (n / 10) (decChar (n % 10) :: acc)

/-- Decimal rendering of a natural number. -/
def natToString (n : Nat) : String := String.mk (natToCharsAux (n + 1) n [])

/-- intToIp from the source: extract the four octets with
`(value >>> s) & 255` (and `value & 255` for the last) and join with dots. -/
def intToIp (v : Int) : String :=
  natToString (jsAnd (jsUshr v 24) 255).toNat ++ "." ++
  natToString (jsAnd (jsUshr v 16) 255).toNat ++ "." ++
  natToString (jsAnd (jsUshr v 8) 255).toNat ++ "." ++
  natToString (jsAnd v 255).toNat

/-- maskFromPrefix from the source: 0 for prefix 0, else
`(0xffffffff << (32 - prefix)) >>> 0`. -/
def maskFromPrefix (p : Nat) : Int :=
  if p = 0 then 0 else jsUshr (jsShl (0xffffffff : Int) (32 - p)) 0

/-- enumerateHosts from the source. `ipInt` is the segment's parsed address
(an unsigned 32-bit value), `pfx` the prefix length. The intermediate
`network`/`broadcast` values are signed 32-bit as in JS; each pushed host is
converted back to unsigned with `>>> 0` before rendering. -/
def enumerateHosts (ipInt : Int) (pfx : Nat) : List String :=
  if pfx = 32 then [intToIp ipInt]
  else
    let mask := maskFromPrefix pfx
    let network := jsAnd ipInt mask
    let broadcast := jsOr network (jsUshr (jsNot mask) 0)
    if pfx = 31 then [intToIp network, intToIp broadcast]
    else
      let start := if pfx ≤ 24 then network + 1 else network
      let stop := if pfx ≤ 24 then broadcast - 1 else broadcast
      if start > stop then []
      else (List.range (stop - start + 1).toNat).map
        (fun j => intToIp (jsUshr (start + Int.ofNat j) 0))

/-- The network address of the block of `2 ^ (32 - p)` addresses containing
`n`: clear the low `32 - p` bits. -/
def blockBase (n p : Nat) : Nat := n / 2 ^ (32 - p) * 2 ^ (32 - p)

/-- Modelled from the claim's words, for comparison with the code: host
enumeration returns, for prefix 32, exactly the given address; for 31, the
two boundary addresses; for every prefix at most 24 the block's range
excluding exactly the network and broadcast addresses (empty when nothing
remains); and for 25-30 the full range including both boundaries. -/
def enumerationSpec (n p : Nat) : Prop :=
  (p = 32 → enumerateHosts (n : Int) p = [intToIp (n : Int)]) ∧
  (p = 31 → enumerateHosts (n : Int) p =
    [intToIp ((blockBase n p : Nat) : Int),
     intToIp ((blockBase n p + 1 : Nat) : Int)]) ∧
  (p ≤ 24 → enumerateHosts (n : Int) p =
    (List.range' (blockBase n p + 1) (2 ^ (32 - p) - 2)).map
      (fun u => intToIp ((u : Nat) : Int))) ∧
  (25 ≤ p → p ≤ 30 → enumerateHosts (n : Int) p =
    (List.range' (blockBase n p) (2 ^ (32 - p))).map
      (fun u => intToIp ((u : Nat) : Int)))

/-- csvEscape from the source: double every literal quote, then wrap the
field in quotes when it contains a quote, comma, CR or LF. -/
def csvEscape (s : String) : String :=
  let escaped := s.data.foldr
    (fun c acc => if c = '"' then '"' :: '"' :: acc else c :: acc) []
  if escaped.any (fun c => c == '"' || c == ',' || c == '\r' || c == '\n') then
    String.mk ('"' :: (escaped ++ ['"']))
  else String.mk escaped

/-- Case-insensitive equality of character lists. -/
def lowerEq (a b : List Char) : Bool :=
  (a.map Char.toLower) == (b.map Char.toLower)

/-- Strip one leading `DNS:` or `IP Address:` marker, case-insensitively
(the regex `^(DNS:|IP Address:)/i` of the source). -/
def stripNameMarker (l : List Char) : List Char :=
  if lowerEq (l.take 4) "dns:".data then l.drop 4
  else if lowerEq (l.take 11) "ip address:".data then l.drop 11
  else l

/-- normalizeName from the source: trim; take the text before the first
comma and trim; strip a leading DNS:/IP Address: marker and trim; strip one
trailing dot; strip a trailing `.local` case-insensitively. -/
def normalizeName (name : String) : String :=
  if name = "" then ""
  else
    let trimmed := jsTrimList name.data
    if trimmed = [] then ""
    else
      let firstPart := jsTrimList (trimmed.takeWhile (fun c => ¬(c = ',')))
      let cleaned := jsTrimList (stripNameMarker firstPart)
      let withoutDot := if cleaned.getLast? = some '.' then cleaned.dropLast else cleaned
      if lowerEq (withoutDot.drop (withoutDot.length - 6)) ".local".data then
        String.mk (withoutDot.take (withoutDot.length - 6))
      else String.mk withoutDot

/-- JS `a || b` on strings (the empty string is the only falsy string). -/
def orS (a b : String) : String := if a = "" then b else a

/-- One persisted inventory entry of space.csv (the value stored in the
`spaceMap` built by parseSpaceCsv and updated by updateSpaceCsv). -/
structure SpaceEntry where
  segments : String
  name : String
  auto_name : String
  mac : String
  os_guess : String
  ssh_banner : String
  smb_banner : String
  cert_cn : String
  cert_san : String
  http_server : String
  http_powered_by : String
  http_www_auth : String
  favicon_hash : String
  mdns_services : String
  ssdp_server : String
  ssdp_usn : String
  snmp_sysname : String
  snmp_sysdescr : String
deriving DecidableEq, Repr, Inhabited

/-- The all-empty entry literal the source uses as the default when an IP has
no persisted entry. -/
def emptyEntry : SpaceEntry :=
  ⟨"", "", "", "", "", "", "", "", "", "", "", "", "", "", "", "", "", ""⟩

/-- One transient per-host record of a survey cycle, as built in runSurvey
(enrichment fields plus the cycle-scoped working fields ttl, mdns_host and
http_name; a ttl of 0 stands for JS null, which is interchangeable with 0 in
every use the source makes of it). -/
structure HostRecord where
  segment : String
  ip : String
  segments : String
  name : String
  auto_name : String
  mac : String
  os_guess : String
  ssh_banner : String
  smb_banner : String
  cert_cn : String
  cert_san : String
  http_server : String
  http_powered_by : String
  http_www_auth : String
  favicon_hash : String
  mdns_services : String
  ssdp_server : String
  ssdp_usn : String
  snmp_sysname : String
  snmp_sysdescr : String
  source : String
  ttl : Nat
  mdns_host : String
  http_name : String
deriving DecidableEq, Repr, Inhabited

/-- JS Map lookup on an insertion-ordered association list. -/
def mapGet : List (String × α) → String → Option α
  | [], _ => none
  | (k0, v0) :: t, k => if k0 = k then some v0 else mapGet t k

/-- JS Map.set: replace the value in place when the key exists (keeping its
insertion position), otherwise append the new pair. -/
def mapSet : List (String × α) → String → α → List (String × α)
  | [], k, v => [(k, v)]
  | (k0, v0) :: t, k, v =>
    if k0 = k then (k0, v) :: t else (k0, v0) :: mapSet t k v

/-- The merge of one cycle record into the persisted map, following
updateSpaceCsv exactly: `nextSegments` prefers the record's segment when
segment-label overwrite is on and the segment is non-empty; an existing
entry keeps its non-empty fields unless the record supplies a value
(`record.x || existing.x || ""`), with `name` the one field whose persisted
value wins (`existing.name || record.name || record.auto_name || ""`). -/
def mergeStep (spaceFromSegment : Bool) (existing? : Option SpaceEntry)
    (record : HostRecord) : SpaceEntry :=
  let nextSegments :=
    if spaceFromSegment ∧ record.segment ≠ "" then record.segment
    else match existing? with
      | some e => orS e.segments ""
      | none => ""
  match existing? with
  | some existing =>
    { segments := nextSegments
      name := orS (orS (orS existing.name record.name) record.auto_name) ""
      auto_name := orS (orS record.auto_name existing.auto_name) ""
      mac := orS (orS record.mac existing.mac) ""
      os_guess := orS (orS record.os_guess existing.os_guess) ""
      ssh_banner := orS (orS record.ssh_banner existing.ssh_banner) ""
      smb_banner := orS (orS record.smb_banner existing.smb_banner) ""
      cert_cn := orS (orS record.cert_cn existing.cert_cn) ""
      cert_san := orS (orS record.cert_san existing.cert_san) ""
      http_server := orS (orS record.http_server existing.http_server) ""
      http_powered_by := orS (orS record.http_powered_by existing.http_powered_by) ""
      http_www_auth := orS (orS record.http_www_auth existing.http_www_auth) ""
      favicon_hash := orS (orS record.favicon_hash existing.favicon_hash) ""
      mdns_services := orS (orS record.mdns_services existing.mdns_services) ""
      ssdp_server := orS (orS record.ssdp_server existing.ssdp_server) ""
      ssdp_usn := orS (orS record.ssdp_usn existing.ssdp_usn) ""
      snmp_sysname := orS (orS record.snmp_sysname existing.snmp_sysname) ""
      snmp_sysdescr := orS (orS record.snmp_sysdescr existing.snmp_sysdescr) "" }
  | none =>
    { segments := nextSegments
      name := orS (orS record.name record.auto_name) ""
      auto_name := orS record.auto_name ""
      mac := orS record.mac ""
      os_guess := orS record.os_guess ""
      ssh_banner := orS record.ssh_banner ""
      smb_banner := orS record.smb_banner ""
      cert_cn := orS record.cert_cn ""
      cert_san := orS record.cert_san ""
      http_server := orS record.http_server ""
      http_powered_by := orS record.http_powered_by ""
      http_www_auth := orS record.http_www_auth ""
      favicon_hash := orS record.favicon_hash ""
      mdns_services := orS record.mdns_services ""
      ssdp_server := orS record.ssdp_server ""
      ssdp_usn := orS record.ssdp_usn ""
      snmp_sysname := orS record.snmp_sysname ""
      snmp_sysdescr := orS record.snmp_sysdescr "" }

/-- The merge loop of updateSpaceCsv: start from a copy of the persisted
map and fold the cycle's record map (a JS Map, so its keys are distinct) into
it, each step consulting the map built so far. -/
def mergeFold (spaceFromSegment : Bool) (spaceMap : List (String × SpaceEntry))
    (recordMap : List (String × HostRecord)) : List (String × SpaceEntry) :=
  recordMap.foldl
    (fun m kv => mapSet m kv.1 (mergeStep spaceFromSegment (mapGet m kv.1) kv.2))
    spaceMap

/-- The fixed header row the source writes to space.csv. -/
def spaceHeader : String :=
  "ip,segments,name,auto_name,mac,os_guess,ssh_banner,smb_banner,cert_cn,cert_san,http_server,http_powered_by,http_www_auth,favicon_hash,mdns_services,ssdp_server,ssdp_usn,snmp_sysname,snmp_sysdescr"

/-- Array.prototype.join with a separator. -/
def joinSep (sep : String) : List String → String
  | [] => ""
  | [x] => x
  | x :: xs => x ++ sep ++ joinSep sep xs

/-- The ascending order on IP strings induced by the source's numeric sort
comparator `(a, b) => ipToInt(a) - ipToInt(b)`. -/
def ipLe (a b : String) : Prop := ipToInt a ≤ ipToInt b

instance : DecidableRel ipLe := fun a b => Int.decLe _ _

instance : IsTotal String ipLe := ⟨fun a b => Int.le_total _ _⟩

instance : IsTrans String ipLe := ⟨fun _ _ _ hab hbc => Int.le_trans hab hbc⟩

/-- The key sort of updateSpaceCsv: a stable sort by `ipToInt a - ipToInt b`
ascending (JS Array.prototype.sort with a numeric comparator is stable). -/
def sortIpKeys (l : List String) : List String :=
  List.insertionSort ipLe l

/-- One serialized row of space.csv for a given IP and entry. -/
def entryRow (ip : String) (e : SpaceEntry) : String :=
  joinSep ","
    ([ip, orS e.segments "", orS e.name "", orS e.auto_name "", orS e.mac "",
      orS e.os_guess "", orS e.ssh_banner "", orS e.smb_banner "",
      orS e.cert_cn "", orS e.cert_san "", orS e.http_server "",
      orS e.http_powered_by "", orS e.http_www_auth "", orS e.favicon_hash "",
      orS e.mdns_services "", orS e.ssdp_server "", orS e.ssdp_usn "",
      orS e.snmp_sysname "", orS e.snmp_sysdescr ""].map csvEscape)

/-- updateSpaceCsv from the source, as the pure content it writes to the
space.csv file: merge the cycle's records into the persisted map, sort all
keys ascending by address integer, and emit the header plus one escaped row
per IP, newline-joined with a trailing newline. -/
def updateSpaceCsv (spaceMap : List (String × SpaceEntry))
    (recordMap : List (String × HostRecord)) (spaceFromSegment : Bool) : String :=
  let merged := mergeFold spaceFromSegment spaceMap recordMap
  let sortedIps := sortIpKeys (merged.map Prod.fst)
  joinSep "\n"
    (spaceHeader ::
      sortedIps.map (fun ip => entryRow ip ((mapGet merged ip).getD emptyEntry))) ++ "\n"

/-- isValidIp from the source: four dot-separated parts, each matching
`^(0|[1-9]\d{0,2})$` with value at most 255. -/
def isValidIp (ip : String) : Bool :=
  let parts := splitString '.' ip
  parts.length == 4 && parts.all (fun part =>
    (part.data == ['0'] ||
      (match part.data with
        | [] => false
        | c :: rest => ('1' ≤ c && c ≤ '9') && rest.all Char.isDigit && part.data.length ≤ 3)) &&
    digitsToNat part.data ≤ 255)

/-- The legacy header spellings accepted by parseSpaceCsv. -/
def normalizeKey (k : String) : String :=
  if k = "user_space" then "segments"
  else if k = "manual_name" then "name"
  else k

/-- The header names parseSpaceCsv accepts. -/
def allowedKeys : List String :=
  ["ip", "segments", "name", "auto_name", "mac", "os_guess", "ssh_banner",
   "smb_banner", "cert_cn", "cert_san", "http_server", "http_powered_by",
   "http_www_auth", "favicon_hash", "mdns_services", "ssdp_server",
   "ssdp_usn", "snmp_sysname", "snmp_sysdescr"]

/-- A field value that survives the program's own CSV cycle verbatim: free
of comma, quote and line breaks (so csvEscape leaves it alone and the naive
comma/line splitting of the parser cannot tear it), and stable under the
parser's trim. -/
def cleanField (s : String) : Prop :=
  (∀ c ∈ s.data, c ≠ ',' ∧ c ≠ '"' ∧ c ≠ '\n' ∧ c ≠ '\r') ∧ jsTrim s = s

instance (s : String) : Decidable (cleanField s) := by
  unfold cleanField
  infer_instance

/-- The 18 field values of an entry, in serialization order. -/
def entryValues (e : SpaceEntry) : List String :=
  [e.segments, e.name, e.auto_name, e.mac, e.os_guess, e.ssh_banner,
   e.smb_banner, e.cert_cn, e.cert_san, e.http_server, e.http_powered_by,
   e.http_www_auth, e.favicon_hash, e.mdns_services, e.ssdp_server,
   e.ssdp_usn, e.snmp_sysname, e.snmp_sysdescr]

/-- An entry all of whose field values are clean. -/
def cleanEntry (e : SpaceEntry) : Prop := ∀ v ∈ entryValues e, cleanField v

instance (e : SpaceEntry) : Decidable (cleanEntry e) := by
  unfold cleanEntry
  infer_instance

/-- The value a parsed row holds for a column name: the source assigns
`row[key] = values[index] ?? ""` for every header position in order, so a
duplicated header's last position wins and a missing value becomes "". -/
def rowValue (hs vs : List String) (k : String) : String :=
  match ((List.range hs.length).filter (fun i => hs.getD i "" == k)).getLast? with
  | some i => vs.getD i ""
  | none => ""

/-- One parsed inventory entry built from a row's values
(each field is `row.x || ""`). -/
def rowEntry (hs vs : List String) : SpaceEntry :=
  { segments := orS (rowValue hs vs "segments") ""
    name := orS (rowValue hs vs "name") ""
    auto_name := orS (rowValue hs vs "auto_name") ""
    mac := orS (rowValue hs vs "mac") ""
    os_guess := orS (rowValue hs vs "os_guess") ""
    ssh_banner := orS (rowValue hs vs "ssh_banner") ""
    smb_banner := orS (rowValue hs vs "smb_banner") ""
    cert_cn := orS (rowValue hs vs "cert_cn") ""
    cert_san := orS (rowValue hs vs "cert_san") ""
    http_server := orS (rowValue hs vs "http_server") ""
    http_powered_by := orS (rowValue hs vs "http_powered_by") ""
    http_www_auth := orS (rowValue hs vs "http_www_auth") ""
    favicon_hash := orS (rowValue hs vs "favicon_hash") ""
    mdns_services := orS (rowValue hs vs "mdns_services") ""
    ssdp_server := orS (rowValue hs vs "ssdp_server") ""
    ssdp_usn := orS (rowValue hs vs "ssdp_usn") ""
    snmp_sysname := orS (rowValue hs vs "snmp_sysname") ""
    snmp_sysdescr := orS (rowValue hs vs "snmp_sysdescr") "" }

/-- The row loop of parseSpaceCsv; `none` models the fatal exits (a row with
fewer than three comma-separated parts, an empty IP, an invalid IP). Note
that a row is split on every literal comma and never unescaped. -/
def parseRows (hs : List String) : List String → List (String × SpaceEntry) →
    Option (List (String × SpaceEntry))
  | [], acc => some acc
  | line :: rest, acc =>
    let parts := splitString ',' line
    if parts.length < 3 then none
    else
      let values := parts.map jsTrim
      let ip := orS (rowValue hs values "ip") ""
      if ip = "" then none
      else if ¬isValidIp ip then none
      else parseRows hs rest (mapSet acc ip (rowEntry hs values))

/-- parseSpaceCsv from the source; `none` models every fatal exit (empty
file, missing ip/segments/name header, unknown header, bad row). -/
def parseSpaceCsv (content : String) : Option (List (String × SpaceEntry)) :=
  let lines := (splitLinesJs content).filter (fun l => !(jsTrim l == ""))
  match lines with
  | [] => none
  | header :: rows =>
    let headers := (splitString ',' (jsTrim header)).map jsTrim
    if ¬headers.contains "ip" then none
    else
      let normalized := headers.map normalizeKey
      if ¬normalized.any (fun v => v == "segments") then none
      else if ¬normalized.any (fun v => v == "name") then none
      else if ¬normalized.all (fun v => allowedKeys.contains v) then none
      else parseRows normalized rows []

/-- The option flags that steer the pure per-host logic of runSurvey
(timeouts and concurrency widths act only on the IO layer). -/
structure SurveyOptions where
  dnsEnabled : Bool
  mdnsEnabled : Bool
  netbiosEnabled : Bool
  httpTitleEnabled : Bool
  httpHeaderEnabled : Bool
  faviconEnabled : Bool
  osGuessEnabled : Bool
  sshBannerEnabled : Bool
  smbBannerEnabled : Bool
  certCnEnabled : Bool
  snmpEnabled : Bool
deriving DecidableEq, Repr

/-- osGuessFromTtl from the source (`!ttl` covers both null, encoded 0, and
a zero TTL). -/
def osGuessFromTtl (ttl : Nat) : String :=
  if ttl = 0 then ""
  else if 128 ≤ ttl then "Windows"
  else if 64 ≤ ttl then "Linux/Unix"
  else if 1 ≤ ttl then "Network/Embedded"
  else ""

/-- The HostRecord literal runSurvey builds for each alive IP: every
enrichment field is seeded from the persisted entry (all-empty when the IP
has none), `mac` falls back to the cycle's neighbor-table lookup, `source`
starts as `none`, and auto_name/mdns_host/http_name start empty. -/
def makeRecord (segmentName ip : String) (entry? : Option SpaceEntry)
    (macLookup : Option String) (ttl : Nat) : HostRecord :=
  let entry := entry?.getD emptyEntry
  { segment := segmentName
    ip := ip
    segments := orS entry.segments ""
    name := orS entry.name ""
    auto_name := ""
    mac := orS (orS entry.mac (macLookup.getD "")) ""
    os_guess := orS entry.os_guess ""
    ssh_banner := orS entry.ssh_banner ""
    smb_banner := orS entry.smb_banner ""
    cert_cn := orS entry.cert_cn ""
    cert_san := orS entry.cert_san ""
    http_server := orS entry.http_server ""
    http_powered_by := orS entry.http_powered_by ""
    http_www_auth := orS entry.http_www_auth ""
    favicon_hash := orS entry.favicon_hash ""
    mdns_services := orS entry.mdns_services ""
    ssdp_server := orS entry.ssdp_server ""
    ssdp_usn := orS entry.ssdp_usn ""
    snmp_sysname := orS entry.snmp_sysname ""
    snmp_sysdescr := orS entry.snmp_sysdescr ""
    source := "none"
    ttl := ttl
    mdns_host := ""
    http_name := "" }

/-- Application of the cycle's SSDP side-table to a record (server and usn
headers of the responder, when present). -/
def applySsdp (info? : Option (String × String)) (r : HostRecord) : HostRecord :=
  match info? with
  | some info => { r with ssdp_server := orS info.1 "", ssdp_usn := orS info.2 "" }
  | none => r

/-- The results the enrichment pass's probes would return for one host, as
explicit inputs (each probe resolves to a string, empty on failure; the
certificate and SNMP probes resolve to pairs). -/
structure EnrichProbes where
  ssh : String
  smb : String
  certCn : String
  certSan : String
  httpName : String
  httpServer : String
  httpPoweredBy : String
  httpWwwAuth : String
  favicon : String
  snmpSysName : String
  snmpSysDescr : String
deriving DecidableEq, Repr

/-- Enrichment statement 1: OS hint from the liveness TTL. -/
def enrichOs (o : SurveyOptions) (r : HostRecord) : HostRecord :=
  if o.osGuessEnabled ∧ r.ttl ≠ 0 then { r with os_guess := osGuessFromTtl r.ttl } else r

/-- Enrichment statement 2: SSH banner, probed only when the seeded field is
empty. -/
def enrichSsh (o : SurveyOptions) (p : EnrichProbes) (r : HostRecord) : HostRecord :=
  if o.sshBannerEnabled ∧ r.ssh_banner = "" then { r with ssh_banner := p.ssh } else r

/-- Enrichment statement 3: SMB presence, probed only when the seeded field
is empty. -/
def enrichSmb (o : SurveyOptions) (p : EnrichProbes) (r : HostRecord) : HostRecord :=
  if o.smbBannerEnabled ∧ r.smb_banner = "" then { r with smb_banner := p.smb } else r

/-- Enrichment statement 4: certificate CN/SAN, probed only when both seeded
halves are empty. -/
def enrichCert (o : SurveyOptions) (p : EnrichProbes) (r : HostRecord) : HostRecord :=
  if o.certCnEnabled ∧ r.cert_cn = "" ∧ r.cert_san = "" then
    { r with cert_cn := orS p.certCn "", cert_san := orS p.certSan "" }
  else r

/-- Enrichment statement 5: HTTP name and headers, gated on the cycle-scoped
http_name being empty (it always is at cycle start, so this probe always
runs when enabled and overwrites the seeded header fields). -/
def enrichHttp (o : SurveyOptions) (p : EnrichProbes) (r : HostRecord) : HostRecord :=
  if (o.httpTitleEnabled ∨ o.httpHeaderEnabled) ∧ r.http_name = "" then
    { r with http_name := orS p.httpName "", http_server := orS p.httpServer "",
             http_powered_by := orS p.httpPoweredBy "", http_www_auth := orS p.httpWwwAuth "" }
  else r

/-- Enrichment statement 6: favicon hash, probed only when the seeded field
is empty (the probe result is assigned directly). -/
def enrichFavicon (o : SurveyOptions) (p : EnrichProbes) (r : HostRecord) : HostRecord :=
  if o.faviconEnabled ∧ r.favicon_hash = "" then { r with favicon_hash := p.favicon } else r

/-- Enrichment statement 7: SNMP sysName/sysDescr, probed only when both
seeded halves are empty. -/
def enrichSnmp (o : SurveyOptions) (p : EnrichProbes) (r : HostRecord) : HostRecord :=
  if o.snmpEnabled ∧ r.snmp_sysname = "" ∧ r.snmp_sysdescr = "" then
    { r with snmp_sysname := orS p.snmpSysName "", snmp_sysdescr := orS p.snmpSysDescr "" }
  else r

/-- The per-record body of the enrichment fan-out in runSurvey: the seven
statements in source order, each probe running only when its flag is on and
its record field is still empty. -/
def enrichRecord (o : SurveyOptions) (p : EnrichProbes) (r : HostRecord) : HostRecord :=
  enrichSnmp o p (enrichFavicon o p (enrichHttp o p (enrichCert o p
    (enrichSmb o p (enrichSsh o p (enrichOs o r))))))

/-- The results the naming pass's own probes would return for one host, as
explicit inputs (reverse DNS, the raw mDNS PTR answer, NetBIOS). -/
structure NamingProbes where
  rdns : String
  mdnsRaw : String
  netbios : String
deriving DecidableEq, Repr

/-- Strip one trailing dot (the `replace(/\.$/, "")` applied to the raw mDNS
host before the service-table lookup). -/
def stripTrailingDot (s : String) : String :=
  match s.data.getLast? with
  | some '.' => String.mk s.data.dropLast
  | _ => s

/-- The side effect of the naming pass's mdns step: when a raw mDNS host was
obtained, record it and attach the service-enumeration side-table's services
for that host (joined with semicolons), whether or not mdns wins naming. -/
def mdnsAttach (o : SurveyOptions) (np : NamingProbes)
    (serviceMap : List (String × List String)) (r : HostRecord) : HostRecord :=
  if o.mdnsEnabled ∧ np.mdnsRaw ≠ "" then
    let r1 := { r with mdns_host := np.mdnsRaw }
    match mapGet serviceMap (stripTrailingDot np.mdnsRaw) with
    | some services =>
      if services.length ≠ 0 then { r1 with mdns_services := joinSep ";" services } else r1
    | none => r1
  else r

/-- The fallback chain of the naming pass after the mdns side effect has
been applied: mdns, netbios, http, cert CN, cert SAN, ssh, each gated by its
flag and its raw value being truthy, short-circuiting on the first non-empty
normalized name; otherwise an empty auto_name with source `none`. -/
def namingChain (o : SurveyOptions) (np : NamingProbes) (r : HostRecord) : HostRecord :=
  if o.mdnsEnabled ∧ normalizeName np.mdnsRaw ≠ "" then
    { r with auto_name := normalizeName np.mdnsRaw, source := "mdns" }
  else if o.netbiosEnabled ∧ normalizeName np.netbios ≠ "" then
    { r with auto_name := normalizeName np.netbios, source := "netbios" }
  else if o.httpTitleEnabled ∧ r.http_name ≠ "" ∧ normalizeName r.http_name ≠ "" then
    { r with auto_name := normalizeName r.http_name, source := "http" }
  else if o.certCnEnabled ∧ r.cert_cn ≠ "" ∧ normalizeName r.cert_cn ≠ "" then
    { r with auto_name := normalizeName r.cert_cn, source := "cert" }
  else if o.certCnEnabled ∧ r.cert_san ≠ "" ∧ normalizeName r.cert_san ≠ "" then
    { r with auto_name := normalizeName r.cert_san, source := "cert" }
  else if o.sshBannerEnabled ∧ r.ssh_banner ≠ "" ∧ normalizeName r.ssh_banner ≠ "" then
    { r with auto_name := normalizeName r.ssh_banner, source := "ssh" }
  else
    { r with auto_name := "", source := "none" }

/-- The per-record body of the naming fan-out in runSurvey: reverse DNS
first (when enabled, winning outright on a non-empty normalized name), then
the mdns side effect followed by the rest of the fixed fallback chain. -/
def resolveNaming (o : SurveyOptions) (np : NamingProbes)
    (serviceMap : List (String × List String)) (r : HostRecord) : HostRecord :=
  if o.dnsEnabled ∧ normalizeName np.rdns ≠ "" then
    { r with auto_name := normalizeName np.rdns, source := "rdns" }
  else
    namingChain o np (mdnsAttach o np serviceMap r)

/-- Finalization statement 1: an empty name is filled from auto_name. -/
def fillNameFromAuto (r : HostRecord) : HostRecord :=
  if r.name = "" ∧ r.auto_name ≠ "" then { r with name := r.auto_name } else r

/-- Finalization statement 2: `source` becomes `manual` only when the record
has a name but the chain produced nothing (`source === "none"`). -/
def markManual (r : HostRecord) : HostRecord :=
  if r.name ≠ "" ∧ r.source = "none" then { r with source := "manual" } else r

/-- The name/source finalization loop of runSurvey. -/
def finalizeRecord (r : HostRecord) : HostRecord :=
  markManual (fillNameFromAuto r)

/-- The full pure pipeline one alive host's record goes through in a cycle:
seed from the persisted entry, apply the SSDP side-table, enrich, resolve
naming, finalize name and source. -/
def surveyRecord (o : SurveyOptions) (segmentName ip : String)
    (entry? : Option SpaceEntry) (macLookup : Option String) (ttl : Nat)
    (ssdpInfo : Option (String × String)) (ep : EnrichProbes) (np : NamingProbes)
    (serviceMap : List (String × List String)) : HostRecord :=
  finalizeRecord
    (resolveNaming o np serviceMap
      (enrichRecord o ep (applySsdp ssdpInfo (makeRecord segmentName ip entry? macLookup ttl))))

/-- The output row runSurvey emits for one record. -/
def recordRow (r : HostRecord) : String :=
  joinSep ","
    ([r.segment, r.ip, r.segments, r.name, r.auto_name, r.mac, r.os_guess,
      r.ssh_banner, r.smb_banner, r.cert_cn, r.cert_san, r.http_server,
      r.http_powered_by, r.http_www_auth, r.favicon_hash, r.mdns_services,
      r.ssdp_server, r.ssdp_usn, r.snmp_sysname, r.snmp_sysdescr,
      r.source].map csvEscape)

/-- Scheduler state of runWithConcurrency: `idx` counts the items handed to
workers so far, `active` the workers currently in flight. -/
structure PoolState where
  idx : Nat
  active : Nat
deriving DecidableEq, Repr

/-- The two events of runWithConcurrency's cooperative loop, as a transition
relation: `start` launches the next item and is guarded exactly by the
source's `while (active < limit && index < items.length)`; `finish` is a
worker resolving, which decrements `active` (and may enable further
starts). -/
inductive PoolStep (total limit : Nat) : PoolState → PoolState → Prop where
  | start (s : PoolState) (hActive : s.active < limit) (hIdx : s.idx < total) :
      PoolStep total limit s ⟨s.idx + 1, s.active + 1⟩
  | finish (s : PoolState) (hActive : 0 < s.active) :
      PoolStep total limit s ⟨s.idx, s.active - 1⟩

/-- The states runWithConcurrency can reach from its initial state
(`index = 0`, `active = 0`). -/
def poolReachable (total limit : Nat) (s : PoolState) : Prop :=
  Relation.ReflTransGen (PoolStep total limit) ⟨0, 0⟩ s

/-- All probe flags on (the default configuration, with NetBIOS enabled as
on win32). -/
def allFlagsOn : SurveyOptions :=
  ⟨true, true, true, true, true, true, true, true, true, true, true⟩

/-- Probe results in which every probe failed (resolved empty). -/
def noProbes : EnrichProbes :=
  ⟨"", "", "", "", "", "", "", "", "", "", ""⟩

/-- Fixture for the C10 witness: an entry with a seeded SSH banner. -/
def c10Entry : SpaceEntry := { emptyEntry with ssh_banner := "SSH-2.0-OpenSSH_9.6" }

/-- Fixture for the C10 witness: probes that would report a different
banner. -/
def c10Probes : EnrichProbes := { noProbes with ssh := "SSH-2.0-other" }

/-- Fixture for the C3 witness: one persisted entry. -/
def c3Space : List (String × SpaceEntry) :=
  [("10.0.0.1", { emptyEntry with name := "Router1" })]

/-- Fixture for the C3 witness: one cycle record for the same IP. -/
def c3Records : List (String × HostRecord) :=
  [("10.0.0.1", { (default : HostRecord) with
      segment := "LAN", ip := "10.0.0.1", mac := "aa:bb:cc:dd:ee:ff" })]

/-- A cycle record whose auto_name holds a comma, for exercising the CSV
cycle on a dirty value. -/
def c8Records : List (String × HostRecord) :=
  [("10.0.0.1",
    ⟨"lan", "10.0.0.1", "lan", "", "a,b", "", "", "", "", "", "", "", "", "",
     "", "", "", "", "", "", "none", 0, "", ""⟩)]

/-- A persisted inventory of one clean entry. -/
def c8wSpace : List (String × SpaceEntry) :=
  [("10.0.0.2", { emptyEntry with name := "printer", segments := "lan" })]

/-- A cycle record map of one clean record. -/
def c8wRecords : List (String × HostRecord) :=
  [("10.0.0.1",
    ⟨"lan", "10.0.0.1", "lan", "", "host-a", "aa:bb", "Linux", "", "", "", "",
     "", "", "", "", "", "", "", "", "", "rdns", 64, "", ""⟩)]

/-! Field-preservation lemmas: each pipeline step leaves every record field
it does not assign untouched. -/

@[simp] theorem applySsdp_name (i : Option (String × String)) (r : HostRecord) :
    (applySsdp i r).name = r.name := by
  cases i <;> rfl

@[simp] theorem applySsdp_source (i : Option (String × String)) (r : HostRecord) :
    (applySsdp i r).source = r.source := by
  cases i <;> rfl

@[simp] theorem applySsdp_auto_name (i : Option (String × String)) (r : HostRecord) :
    (applySsdp i r).auto_name = r.auto_name := by
  cases i <;> rfl

@[simp] theorem applySsdp_ssh_banner (i : Option (String × String)) (r : HostRecord) :
    (applySsdp i r).ssh_banner = r.ssh_banner := by
  cases i <;> rfl

@[simp] theorem applySsdp_smb_banner (i : Option (String × String)) (r : HostRecord) :
    (applySsdp i r).smb_banner = r.smb_banner := by
  cases i <;> rfl

@[simp] theorem applySsdp_cert_cn (i : Option (String × String)) (r : HostRecord) :
    (applySsdp i r).cert_cn = r.cert_cn := by
  cases i <;> rfl

@[simp] theorem applySsdp_cert_san (i : Option (String × String)) (r : HostRecord) :
    (applySsdp i r).cert_san = r.cert_san := by
  cases i <;> rfl

@[simp] theorem applySsdp_favicon_hash (i : Option (String × String)) (r : HostRecord) :
    (applySsdp i r).favicon_hash = r.favicon_hash := by
  cases i <;> rfl

@[simp] theorem applySsdp_snmp_sysname (i : Option (String × String)) (r : HostRecord) :
    (applySsdp i r).snmp_sysname = r.snmp_sysname := by
  cases i <;> rfl

@[simp] theorem applySsdp_snmp_sysdescr (i : Option (String × String)) (r : HostRecord) :
    (applySsdp i r).snmp_sysdescr = r.snmp_sysdescr := by
  cases i <;> rfl

@[simp] theorem enrichOs_name (o : SurveyOptions) (r : HostRecord) :
    (enrichOs o r).name = r.name := by
  unfold enrichOs; split <;> rfl

@[simp] theorem enrichOs_source (o : SurveyOptions) (r : HostRecord) :
    (enrichOs o r).source = r.source := by
  unfold enrichOs; split <;> rfl

@[simp] theorem enrichOs_auto_name (o : SurveyOptions) (r : HostRecord) :
    (enrichOs o r).auto_name = r.auto_name := by
  unfold enrichOs; split <;> rfl

@[simp] theorem enrichOs_ssh_banner (o : SurveyOptions) (r : HostRecord) :
    (enrichOs o r).ssh_banner = r.ssh_banner := by
  unfold enrichOs; split <;> rfl

@[simp] theorem enrichOs_smb_banner (o : SurveyOptions) (r : HostRecord) :
    (enrichOs o r).smb_banner = r.smb_banner := by
  unfold enrichOs; split <;> rfl

@[simp] theorem enrichOs_cert_cn (o : SurveyOptions) (r : HostRecord) :
    (enrichOs o r).cert_cn = r.cert_cn := by
  unfold enrichOs; split <;> rfl

@[simp] theorem enrichOs_cert_san (o : SurveyOptions) (r : HostRecord) :
    (enrichOs o r).cert_san = r.cert_san := by
  unfold enrichOs; split <;> rfl

@[simp] theorem enrichOs_favicon_hash (o : SurveyOptions) (r : HostRecord) :
    (enrichOs o r).favicon_hash = r.favicon_hash := by
  unfold enrichOs; split <;> rfl

@[simp] theorem enrichOs_snmp_sysname (o : SurveyOptions) (r : HostRecord) :
    (enrichOs o r).snmp_sysname = r.snmp_sysname := by
  unfold enrichOs; split <;> rfl

@[simp] theorem enrichOs_snmp_sysdescr (o : SurveyOptions) (r : HostRecord) :
    (enrichOs o r).snmp_sysdescr = r.snmp_sysdescr := by
  unfold enrichOs; split <;> rfl

@[simp] theorem enrichSsh_name (o : SurveyOptions) (p : EnrichProbes) (r : HostRecord) :
    (enrichSsh o p r).name = r.name := by
  unfold enrichSsh; split <;> rfl

@[simp] theorem enrichSsh_source (o : SurveyOptions) (p : EnrichProbes) (r : HostRecord) :
    (enrichSsh o p r).source = r.source := by
  unfold enrichSsh; split <;> rfl

@[simp] theorem enrichSsh_auto_name (o : SurveyOptions) (p : EnrichProbes) (r : HostRecord) :
    (enrichSsh o p r).auto_name = r.auto_name := by
  unfold enrichSsh; split <;> rfl

@[simp] theorem enrichSsh_smb_banner (o : SurveyOptions) (p : EnrichProbes) (r : HostRecord) :
    (enrichSsh o p r).smb_banner = r.smb_banner := by
  unfold enrichSsh; split <;> rfl

@[simp] theorem enrichSsh_cert_cn (o : SurveyOptions) (p : EnrichProbes) (r : HostRecord) :
    (enrichSsh o p r).cert_cn = r.cert_cn := by
  unfold enrichSsh; split <;> rfl

@[simp] theorem enrichSsh_cert_san (o : SurveyOptions) (p : EnrichProbes) (r : HostRecord) :
    (enrichSsh o p r).cert_san = r.cert_san := by
  unfold enrichSsh; split <;> rfl

@[simp] theorem enrichSsh_favicon_hash (o : SurveyOptions) (p : EnrichProbes) (r : HostRecord) :
    (enrichSsh o p r).favicon_hash = r.favicon_hash := by
  unfold enrichSsh; split <;> rfl

@[simp] theorem enrichSsh_snmp_sysname (o : SurveyOptions) (p : EnrichProbes) (r : HostRecord) :
    (enrichSsh o p r).snmp_sysname = r.snmp_sysname := by
  unfold enrichSsh; split <;> rfl

@[simp] theorem enrichSsh_snmp_sysdescr (o : SurveyOptions) (p : EnrichProbes) (r : HostRecord) :
    (enrichSsh o p r).snmp_sysdescr = r.snmp_sysdescr := by
  unfold enrichSsh; split <;> rfl

@[simp] theorem enrichSmb_name (o : SurveyOptions) (p : EnrichProbes) (r : HostRecord) :
    (enrichSmb o p r).name = r.name := by
  unfold enrichSmb; split <;> rfl

@[simp] theorem enrichSmb_source (o : SurveyOptions) (p : EnrichProbes) (r : HostRecord) :
    (enrichSmb o p r).source = r.source := by
  unfold enrichSmb; split <;> rfl

@[simp] theorem enrichSmb_auto_name (o : SurveyOptions) (p : EnrichProbes) (r : HostRecord) :
    (enrichSmb o p r).auto_name = r.auto_name := by
  unfold enrichSmb; split <;> rfl

@[simp] theorem enrichSmb_ssh_banner (o : SurveyOptions) (p : EnrichProbes) (r : HostRecord) :
    (enrichSmb o p r).ssh_banner = r.ssh_banner := by
  unfold enrichSmb; split <;> rfl

@[simp] theorem enrichSmb_cert_cn (o : SurveyOptions) (p : EnrichProbes) (r : HostRecord) :
    (enrichSmb o p r).cert_cn = r.cert_cn := by
  unfold enrichSmb; split <;> rfl

@[simp] theorem enrichSmb_cert_san (o : SurveyOptions) (p : EnrichProbes) (r : HostRecord) :
    (enrichSmb o p r).cert_san = r.cert_san := by
  unfold enrichSmb; split <;> rfl

@[simp] theorem enrichSmb_favicon_hash (o : SurveyOptions) (p : EnrichProbes) (r : HostRecord) :
    (enrichSmb o p r).favicon_hash = r.favicon_hash := by
  unfold enrichSmb; split <;> rfl

@[simp] theorem enrichSmb_snmp_sysname (o : SurveyOptions) (p : EnrichProbes) (r : HostRecord) :
    (enrichSmb o p r).snmp_sysname = r.snmp_sysname := by
  unfold enrichSmb; split <;> rfl

@[simp] theorem enrichSmb_snmp_sysdescr (o : SurveyOptions) (p : EnrichProbes) (r : HostRecord) :
    (enrichSmb o p r).snmp_sysdescr = r.snmp_sysdescr := by
  unfold enrichSmb; split <;> rfl

@[simp] theorem enrichCert_name (o : SurveyOptions) (p : EnrichProbes) (r : HostRecord) :
    (enrichCert o p r).name = r.name := by
  unfold enrichCert; split <;> rfl

@[simp] theorem enrichCert_source (o : SurveyOptions) (p : EnrichProbes) (r : HostRecord) :
    (enrichCert o p r).source = r.source := by
  unfold enrichCert; split <;> rfl

@[simp] theorem enrichCert_auto_name (o : SurveyOptions) (p : EnrichProbes) (r : HostRecord) :
    (enrichCert o p r).auto_name = r.auto_name := by
  unfold enrichCert; split <;> rfl

@[simp] theorem enrichCert_ssh_banner (o : SurveyOptions) (p : EnrichProbes) (r : HostRecord) :
    (enrichCert o p r).ssh_banner = r.ssh_banner := by
  unfold enrichCert; split <;> rfl

@[simp] theorem enrichCert_smb_banner (o : SurveyOptions) (p : EnrichProbes) (r : HostRecord) :
    (enrichCert o p r).smb_banner = r.smb_banner := by
  unfold enrichCert; split <;> rfl

@[simp] theorem enrichCert_favicon_hash (o : SurveyOptions) (p : EnrichProbes) (r : HostRecord) :
    (enrichCert o p r).favicon_hash = r.favicon_hash := by
  unfold enrichCert; split <;> rfl

@[simp] theorem enrichCert_snmp_sysname (o : SurveyOptions) (p : EnrichProbes) (r : HostRecord) :
    (enrichCert o p r).snmp_sysname = r.snmp_sysname := by
  unfold enrichCert; split <;> rfl

@[simp] theorem enrichCert_snmp_sysdescr (o : SurveyOptions) (p : EnrichProbes) (r : HostRecord) :
    (enrichCert o p r).snmp_sysdescr = r.snmp_sysdescr := by
  unfold enrichCert; split <;> rfl

@[simp] theorem enrichHttp_name (o : SurveyOptions) (p : EnrichProbes) (r : HostRecord) :
    (enrichHttp o p r).name = r.name := by
  unfold enrichHttp; split <;> rfl

@[simp] theorem enrichHttp_source (o : SurveyOptions) (p : EnrichProbes) (r : HostRecord) :
    (enrichHttp o p r).source = r.source := by
  unfold enrichHttp; split <;> rfl

@[simp] theorem enrichHttp_auto_name (o : SurveyOptions) (p : EnrichProbes) (r : HostRecord) :
    (enrichHttp o p r).auto_name = r.auto_name := by
  unfold enrichHttp; split <;> rfl

@[simp] theorem enrichHttp_ssh_banner (o : SurveyOptions) (p : EnrichProbes) (r : HostRecord) :
    (enrichHttp o p r).ssh_banner = r.ssh_banner := by
  unfold enrichHttp; split <;> rfl

@[simp] theorem enrichHttp_smb_banner (o : SurveyOptions) (p : EnrichProbes) (r : HostRecord) :
    (enrichHttp o p r).smb_banner = r.smb_banner := by
  unfold enrichHttp; split <;> rfl

@[simp] theorem enrichHttp_cert_cn (o : SurveyOptions) (p : EnrichProbes) (r : HostRecord) :
    (enrichHttp o p r).cert_cn = r.cert_cn := by
  unfold enrichHttp; split <;> rfl

@[simp] theorem enrichHttp_cert_san (o : SurveyOptions) (p : EnrichProbes) (r : HostRecord) :
    (enrichHttp o p r).cert_san = r.cert_san := by
  unfold enrichHttp; split <;> rfl

@[simp] theorem enrichHttp_favicon_hash (o : SurveyOptions) (p : EnrichProbes) (r : HostRecord) :
    (enrichHttp o p r).favicon_hash = r.favicon_hash := by
  unfold enrichHttp; split <;> rfl

@[simp] theorem enrichHttp_snmp_sysname (o : SurveyOptions) (p : EnrichProbes) (r : HostRecord) :
    (enrichHttp o p r).snmp_sysname = r.snmp_sysname := by
  unfold enrichHttp; split <;> rfl

@[simp] theorem enrichHttp_snmp_sysdescr (o : SurveyOptions) (p : EnrichProbes) (r : HostRecord) :
    (enrichHttp o p r).snmp_sysdescr = r.snmp_sysdescr := by
  unfold enrichHttp; split <;> rfl

@[simp] theorem enrichFavicon_name (o : SurveyOptions) (p : EnrichProbes) (r : HostRecord) :
    (enrichFavicon o p r).name = r.name := by
  unfold enrichFavicon; split <;> rfl

@[simp] theorem enrichFavicon_source (o : SurveyOptions) (p : EnrichProbes) (r : HostRecord) :
    (enrichFavicon o p r).source = r.source := by
  unfold enrichFavicon; split <;> rfl

@[simp] theorem enrichFavicon_auto_name (o : SurveyOptions) (p : EnrichProbes) (r : HostRecord) :
    (enrichFavicon o p r).auto_name = r.auto_name := by
  unfold enrichFavicon; split <;> rfl

@[simp] theorem enrichFavicon_ssh_banner (o : SurveyOptions) (p : EnrichProbes) (r : HostRecord) :
    (enrichFavicon o p r).ssh_banner = r.ssh_banner := by
  unfold enrichFavicon; split <;> rfl

@[simp] theorem enrichFavicon_smb_banner (o : SurveyOptions) (p : EnrichProbes) (r : HostRecord) :
    (enrichFavicon o p r).smb_banner = r.smb_banner := by
  unfold enrichFavicon; split <;> rfl

@[simp] theorem enrichFavicon_cert_cn (o : SurveyOptions) (p : EnrichProbes) (r : HostRecord) :
    (enrichFavicon o p r).cert_cn = r.cert_cn := by
  unfold enrichFavicon; split <;> rfl

@[simp] theorem enrichFavicon_cert_san (o : SurveyOptions) (p : EnrichProbes) (r : HostRecord) :
    (enrichFavicon o p r).cert_san = r.cert_san := by
  unfold enrichFavicon; split <;> rfl

@[simp] theorem enrichFavicon_snmp_sysname (o : SurveyOptions) (p : EnrichProbes) (r : HostRecord) :
    (enrichFavicon o p r).snmp_sysname = r.snmp_sysname := by
  unfold enrichFavicon; split <;> rfl

@[simp] theorem enrichFavicon_snmp_sysdescr (o : SurveyOptions) (p : EnrichProbes) (r : HostRecord) :
    (enrichFavicon o p r).snmp_sysdescr = r.snmp_sysdescr := by
  unfold enrichFavicon; split <;> rfl

@[simp] theorem enrichSnmp_name (o : SurveyOptions) (p : EnrichProbes) (r : HostRecord) :
    (enrichSnmp o p r).name = r.name := by
  unfold enrichSnmp; split <;> rfl

@[simp] theorem enrichSnmp_source (o : SurveyOptions) (p : EnrichProbes) (r : HostRecord) :
    (enrichSnmp o p r).source = r.source := by
  unfold enrichSnmp; split <;> rfl

@[simp] theorem enrichSnmp_auto_name (o : SurveyOptions) (p : EnrichProbes) (r : HostRecord) :
    (enrichSnmp o p r).auto_name = r.auto_name := by
  unfold enrichSnmp; split <;> rfl

@[simp] theorem enrichSnmp_ssh_banner (o : SurveyOptions) (p : EnrichProbes) (r : HostRecord) :
    (enrichSnmp o p r).ssh_banner = r.ssh_banner := by
  unfold enrichSnmp; split <;> rfl

@[simp] theorem enrichSnmp_smb_banner (o : SurveyOptions) (p : EnrichProbes) (r : HostRecord) :
    (enrichSnmp o p r).smb_banner = r.smb_banner := by
  unfold enrichSnmp; split <;> rfl

@[simp] theorem enrichSnmp_cert_cn (o : SurveyOptions) (p : EnrichProbes) (r : HostRecord) :
    (enrichSnmp o p r).cert_cn = r.cert_cn := by
  unfold enrichSnmp; split <;> rfl

@[simp] theorem enrichSnmp_cert_san (o : SurveyOptions) (p : EnrichProbes) (r : HostRecord) :
    (enrichSnmp o p r).cert_san = r.cert_san := by
  unfold enrichSnmp; split <;> rfl

@[simp] theorem enrichSnmp_favicon_hash (o : SurveyOptions) (p : EnrichProbes) (r : HostRecord) :
    (enrichSnmp o p r).favicon_hash = r.favicon_hash := by
  unfold enrichSnmp; split <;> rfl

@[simp] theorem mdnsAttach_name (o : SurveyOptions) (np : NamingProbes) (sm : List (String × List String)) (r : HostRecord) :
    (mdnsAttach o np sm r).name = r.name := by
  unfold mdnsAttach
  repeat' split
  all_goals rfl

@[simp] theorem mdnsAttach_source (o : SurveyOptions) (np : NamingProbes) (sm : List (String × List String)) (r : HostRecord) :
    (mdnsAttach o np sm r).source = r.source := by
  unfold mdnsAttach
  repeat' split
  all_goals rfl

@[simp] theorem mdnsAttach_auto_name (o : SurveyOptions) (np : NamingProbes) (sm : List (String × List String)) (r : HostRecord) :
    (mdnsAttach o np sm r).auto_name = r.auto_name := by
  unfold mdnsAttach
  repeat' split
  all_goals rfl

@[simp] theorem mdnsAttach_ssh_banner (o : SurveyOptions) (np : NamingProbes) (sm : List (String × List String)) (r : HostRecord) :
    (mdnsAttach o np sm r).ssh_banner = r.ssh_banner := by
  unfold mdnsAttach
  repeat' split
  all_goals rfl

@[simp] theorem mdnsAttach_smb_banner (o : SurveyOptions) (np : NamingProbes) (sm : List (String × List String)) (r : HostRecord) :
    (mdnsAttach o np sm r).smb_banner = r.smb_banner := by
  unfold mdnsAttach
  repeat' split
  all_goals rfl

@[simp] theorem mdnsAttach_cert_cn (o : SurveyOptions) (np : NamingProbes) (sm : List (String × List String)) (r : HostRecord) :
    (mdnsAttach o np sm r).cert_cn = r.cert_cn := by
  unfold mdnsAttach
  repeat' split
  all_goals rfl

@[simp] theorem mdnsAttach_cert_san (o : SurveyOptions) (np : NamingProbes) (sm : List (String × List String)) (r : HostRecord) :
    (mdnsAttach o np sm r).cert_san = r.cert_san := by
  unfold mdnsAttach
  repeat' split
  all_goals rfl

@[simp] theorem mdnsAttach_favicon_hash (o : SurveyOptions) (np : NamingProbes) (sm : List (String × List String)) (r : HostRecord) :
    (mdnsAttach o np sm r).favicon_hash = r.favicon_hash := by
  unfold mdnsAttach
  repeat' split
  all_goals rfl

@[simp] theorem mdnsAttach_snmp_sysname (o : SurveyOptions) (np : NamingProbes) (sm : List (String × List String)) (r : HostRecord) :
    (mdnsAttach o np sm r).snmp_sysname = r.snmp_sysname := by
  unfold mdnsAttach
  repeat' split
  all_goals rfl

@[simp] theorem mdnsAttach_snmp_sysdescr (o : SurveyOptions) (np : NamingProbes) (sm : List (String × List String)) (r : HostRecord) :
    (mdnsAttach o np sm r).snmp_sysdescr = r.snmp_sysdescr := by
  unfold mdnsAttach
  repeat' split
  all_goals rfl

@[simp] theorem namingChain_name (o : SurveyOptions) (np : NamingProbes) (r : HostRecord) :
    (namingChain o np r).name = r.name := by
  unfold namingChain
  repeat' split
  all_goals rfl

@[simp] theorem namingChain_ssh_banner (o : SurveyOptions) (np : NamingProbes) (r : HostRecord) :
    (namingChain o np r).ssh_banner = r.ssh_banner := by
  unfold namingChain
  repeat' split
  all_goals rfl

@[simp] theorem namingChain_smb_banner (o : SurveyOptions) (np : NamingProbes) (r : HostRecord) :
    (namingChain o np r).smb_banner = r.smb_banner := by
  unfold namingChain
  repeat' split
  all_goals rfl

@[simp] theorem namingChain_cert_cn (o : SurveyOptions) (np : NamingProbes) (r : HostRecord) :
    (namingChain o np r).cert_cn = r.cert_cn := by
  unfold namingChain
  repeat' split
  all_goals rfl

@[simp] theorem namingChain_cert_san (o : SurveyOptions) (np : NamingProbes) (r : HostRecord) :
    (namingChain o np r).cert_san = r.cert_san := by
  unfold namingChain
  repeat' split
  all_goals rfl

@[simp] theorem namingChain_favicon_hash (o : SurveyOptions) (np : NamingProbes) (r : HostRecord) :
    (namingChain o np r).favicon_hash = r.favicon_hash := by
  unfold namingChain
  repeat' split
  all_goals rfl

@[simp] theorem namingChain_snmp_sysname (o : SurveyOptions) (np : NamingProbes) (r : HostRecord) :
    (namingChain o np r).snmp_sysname = r.snmp_sysname := by
  unfold namingChain
  repeat' split
  all_goals rfl

@[simp] theorem namingChain_snmp_sysdescr (o : SurveyOptions) (np : NamingProbes) (r : HostRecord) :
    (namingChain o np r).snmp_sysdescr = r.snmp_sysdescr := by
  unfold namingChain
  repeat' split
  all_goals rfl

@[simp] theorem fillNameFromAuto_source (r : HostRecord) :
    (fillNameFromAuto r).source = r.source := by
  unfold fillNameFromAuto; split <;> rfl

@[simp] theorem fillNameFromAuto_auto_name (r : HostRecord) :
    (fillNameFromAuto r).auto_name = r.auto_name := by
  unfold fillNameFromAuto; split <;> rfl

@[simp] theorem fillNameFromAuto_ssh_banner (r : HostRecord) :
    (fillNameFromAuto r).ssh_banner = r.ssh_banner := by
  unfold fillNameFromAuto; split <;> rfl

@[simp] theorem fillNameFromAuto_smb_banner (r : HostRecord) :
    (fillNameFromAuto r).smb_banner = r.smb_banner := by
  unfold fillNameFromAuto; split <;> rfl

@[simp] theorem fillNameFromAuto_cert_cn (r : HostRecord) :
    (fillNameFromAuto r).cert_cn = r.cert_cn := by
  unfold fillNameFromAuto; split <;> rfl

@[simp] theorem fillNameFromAuto_cert_san (r : HostRecord) :
    (fillNameFromAuto r).cert_san = r.cert_san := by
  unfold fillNameFromAuto; split <;> rfl

@[simp] theorem fillNameFromAuto_favicon_hash (r : HostRecord) :
    (fillNameFromAuto r).favicon_hash = r.favicon_hash := by
  unfold fillNameFromAuto; split <;> rfl

@[simp] theorem fillNameFromAuto_snmp_sysname (r : HostRecord) :
    (fillNameFromAuto r).snmp_sysname = r.snmp_sysname := by
  unfold fillNameFromAuto; split <;> rfl

@[simp] theorem fillNameFromAuto_snmp_sysdescr (r : HostRecord) :
    (fillNameFromAuto r).snmp_sysdescr = r.snmp_sysdescr := by
  unfold fillNameFromAuto; split <;> rfl

@[simp] theorem markManual_name (r : HostRecord) :
    (markManual r).name = r.name := by
  unfold markManual; split <;> rfl

@[simp] theorem markManual_auto_name (r : HostRecord) :
    (markManual r).auto_name = r.auto_name := by
  unfold markManual; split <;> rfl

@[simp] theorem markManual_ssh_banner (r : HostRecord) :
    (markManual r).ssh_banner = r.ssh_banner := by
  unfold markManual; split <;> rfl

@[simp] theorem markManual_smb_banner (r : HostRecord) :
    (markManual r).smb_banner = r.smb_banner := by
  unfold markManual; split <;> rfl

@[simp] theorem markManual_cert_cn (r : HostRecord) :
    (markManual r).cert_cn = r.cert_cn := by
  unfold markManual; split <;> rfl

@[simp] theorem markManual_cert_san (r : HostRecord) :
    (markManual r).cert_san = r.cert_san := by
  unfold markManual; split <;> rfl

@[simp] theorem markManual_favicon_hash (r : HostRecord) :
    (markManual r).favicon_hash = r.favicon_hash := by
  unfold markManual; split <;> rfl

@[simp] theorem markManual_snmp_sysname (r : HostRecord) :
    (markManual r).snmp_sysname = r.snmp_sysname := by
  unfold markManual; split <;> rfl

@[simp] theorem markManual_snmp_sysdescr (r : HostRecord) :
    (markManual r).snmp_sysdescr = r.snmp_sysdescr := by
  unfold markManual; split <;> rfl

@[simp] theorem mdnsAttach_http_name (o : SurveyOptions) (np : NamingProbes)
    (sm : List (String × List String)) (r : HostRecord) :
    (mdnsAttach o np sm r).http_name = r.http_name := by
  unfold mdnsAttach
  repeat' split
  all_goals rfl

theorem orS_empty_right (a : String) : orS a "" = a := by
  unfold orS; split <;> simp_all

theorem orS_eq_ite (a b : String) : orS a b = if a = "" then b else a := rfl

/-! Skip lemmas: a probe whose record field (pair) is already populated does
not run, so the field keeps its value whatever the probe would have
returned. -/

theorem enrichSsh_skip (o : SurveyOptions) (p : EnrichProbes) (r : HostRecord)
    (h : r.ssh_banner ≠ "") : (enrichSsh o p r).ssh_banner = r.ssh_banner := by
  unfold enrichSsh; split <;> simp_all

theorem enrichSmb_skip (o : SurveyOptions) (p : EnrichProbes) (r : HostRecord)
    (h : r.smb_banner ≠ "") : (enrichSmb o p r).smb_banner = r.smb_banner := by
  unfold enrichSmb; split <;> simp_all

theorem enrichCert_skip (o : SurveyOptions) (p : EnrichProbes) (r : HostRecord)
    (h : r.cert_cn ≠ "" ∨ r.cert_san ≠ "") :
    (enrichCert o p r).cert_cn = r.cert_cn ∧ (enrichCert o p r).cert_san = r.cert_san := by
  unfold enrichCert; split <;> simp_all

theorem enrichFavicon_skip (o : SurveyOptions) (p : EnrichProbes) (r : HostRecord)
    (h : r.favicon_hash ≠ "") : (enrichFavicon o p r).favicon_hash = r.favicon_hash := by
  unfold enrichFavicon; split <;> simp_all

theorem enrichSnmp_skip (o : SurveyOptions) (p : EnrichProbes) (r : HostRecord)
    (h : r.snmp_sysname ≠ "" ∨ r.snmp_sysdescr ≠ "") :
    (enrichSnmp o p r).snmp_sysname = r.snmp_sysname ∧
    (enrichSnmp o p r).snmp_sysdescr = r.snmp_sysdescr := by
  unfold enrichSnmp; split <;> simp_all

/-! Composite preservation lemmas over whole pipeline stages. -/

@[simp] theorem enrichRecord_name (o : SurveyOptions) (p : EnrichProbes) (r : HostRecord) :
    (enrichRecord o p r).name = r.name := by
  simp [enrichRecord]

@[simp] theorem enrichRecord_source (o : SurveyOptions) (p : EnrichProbes) (r : HostRecord) :
    (enrichRecord o p r).source = r.source := by
  simp [enrichRecord]

@[simp] theorem resolveNaming_name (o : SurveyOptions) (np : NamingProbes)
    (sm : List (String × List String)) (r : HostRecord) :
    (resolveNaming o np sm r).name = r.name := by
  unfold resolveNaming; split
  · rfl
  · simp

@[simp] theorem resolveNaming_ssh_banner (o : SurveyOptions) (np : NamingProbes)
    (sm : List (String × List String)) (r : HostRecord) :
    (resolveNaming o np sm r).ssh_banner = r.ssh_banner := by
  unfold resolveNaming; split
  · rfl
  · simp

@[simp] theorem resolveNaming_smb_banner (o : SurveyOptions) (np : NamingProbes)
    (sm : List (String × List String)) (r : HostRecord) :
    (resolveNaming o np sm r).smb_banner = r.smb_banner := by
  unfold resolveNaming; split
  · rfl
  · simp

@[simp] theorem resolveNaming_cert_cn (o : SurveyOptions) (np : NamingProbes)
    (sm : List (String × List String)) (r : HostRecord) :
    (resolveNaming o np sm r).cert_cn = r.cert_cn := by
  unfold resolveNaming; split
  · rfl
  · simp

@[simp] theorem resolveNaming_cert_san (o : SurveyOptions) (np : NamingProbes)
    (sm : List (String × List String)) (r : HostRecord) :
    (resolveNaming o np sm r).cert_san = r.cert_san := by
  unfold resolveNaming; split
  · rfl
  · simp

@[simp] theorem resolveNaming_favicon_hash (o : SurveyOptions) (np : NamingProbes)
    (sm : List (String × List String)) (r : HostRecord) :
    (resolveNaming o np sm r).favicon_hash = r.favicon_hash := by
  unfold resolveNaming; split
  · rfl
  · simp

@[simp] theorem resolveNaming_snmp_sysname (o : SurveyOptions) (np : NamingProbes)
    (sm : List (String × List String)) (r : HostRecord) :
    (resolveNaming o np sm r).snmp_sysname = r.snmp_sysname := by
  unfold resolveNaming; split
  · rfl
  · simp

@[simp] theorem resolveNaming_snmp_sysdescr (o : SurveyOptions) (np : NamingProbes)
    (sm : List (String × List String)) (r : HostRecord) :
    (resolveNaming o np sm r).snmp_sysdescr = r.snmp_sysdescr := by
  unfold resolveNaming; split
  · rfl
  · simp

theorem fillNameFromAuto_name_of_ne (r : HostRecord) (h : r.name ≠ "") :
    (fillNameFromAuto r).name = r.name := by
  unfold fillNameFromAuto; split <;> simp_all

theorem orS_of_ne (a b : String) (h : a ≠ "") : orS a b = a := by
  simp [orS, h]

/-! Association-list lemmas for the JS Map model, and for the merge loop of
updateSpaceCsv. -/

theorem mapGet_set_self (m : List (String × α)) (k : String) (v : α) :
    mapGet (mapSet m k v) k = some v := by
  induction m with
  | nil => simp [mapGet, mapSet]
  | cons hd tl ih =>
    obtain ⟨k0, v0⟩ := hd
    by_cases h : k0 = k <;> simp [mapGet, mapSet, h, ih]

theorem mapGet_set_ne (m : List (String × α)) (k k' : String) (v : α) (h : k' ≠ k) :
    mapGet (mapSet m k v) k' = mapGet m k' := by
  induction m with
  | nil => simp [mapGet, mapSet, Ne.symm h]
  | cons hd tl ih =>
    obtain ⟨k0, v0⟩ := hd
    by_cases h0 : k0 = k
    · subst h0
      simp [mapGet, mapSet, Ne.symm h]
    · simp [mapGet, mapSet, h0, ih]

theorem mapSet_keys (m : List (String × α)) (k : String) (v : α) :
    (mapSet m k v).map Prod.fst =
      if k ∈ m.map Prod.fst then m.map Prod.fst else m.map Prod.fst ++ [k] := by
  induction m with
  | nil => simp [mapSet]
  | cons hd tl ih =>
    obtain ⟨k0, v0⟩ := hd
    by_cases h : k0 = k
    · simp [mapSet, h]
    · simp only [mapSet, if_neg h, List.map_cons, ih]
      by_cases hm : k ∈ tl.map Prod.fst <;>
        simp [hm, List.mem_cons, Ne.symm h]

theorem mapSet_keys_nodup (m : List (String × α)) (k : String) (v : α)
    (h : (m.map Prod.fst).Nodup) : ((mapSet m k v).map Prod.fst).Nodup := by
  rw [mapSet_keys]
  split
  · exact h
  · rename_i hne
    simp only [List.nodup_append]
    refine ⟨h, List.nodup_singleton k, ?_⟩
    intro a ha hb
    simp only [List.mem_singleton] at hb
    subst hb
    exact hne ha

theorem mergeFold_cons (sFS : Bool) (m : List (String × SpaceEntry))
    (hd : String × HostRecord) (tl : List (String × HostRecord)) :
    mergeFold sFS m (hd :: tl) =
      mergeFold sFS (mapSet m hd.1 (mergeStep sFS (mapGet m hd.1) hd.2)) tl := rfl

theorem mergeFold_get_of_not_mem (sFS : Bool) (m : List (String × SpaceEntry))
    (rm : List (String × HostRecord)) (ip : String)
    (h : ip ∉ rm.map Prod.fst) :
    mapGet (mergeFold sFS m rm) ip = mapGet m ip := by
  induction rm generalizing m with
  | nil => rfl
  | cons hd tl ih =>
    simp only [List.map_cons, List.mem_cons] at h
    push_neg at h
    rw [mergeFold_cons, ih _ h.2, mapGet_set_ne _ _ _ _ h.1]

theorem mergeFold_get_of_mem (sFS : Bool) (m : List (String × SpaceEntry))
    (rm : List (String × HostRecord)) (ip : String) (r : HostRecord)
    (hmem : (ip, r) ∈ rm) (hnd : (rm.map Prod.fst).Nodup) :
    mapGet (mergeFold sFS m rm) ip = some (mergeStep sFS (mapGet m ip) r) := by
  induction rm generalizing m with
  | nil => cases hmem
  | cons hd tl ih =>
    simp only [List.map_cons, List.nodup_cons] at hnd
    rw [mergeFold_cons]
    rcases List.mem_cons.1 hmem with heq | htl
    · subst heq
      rw [mergeFold_get_of_not_mem _ _ _ _ hnd.1, mapGet_set_self]
    · have hne : ip ≠ hd.1 := fun hh => hnd.1 (hh ▸ (List.mem_map.2 ⟨(ip, r), htl, rfl⟩))
      rw [ih _ htl hnd.2, mapGet_set_ne _ _ _ _ hne]

theorem mergeFold_keys_nodup (sFS : Bool) (m : List (String × SpaceEntry))
    (rm : List (String × HostRecord)) (h : (m.map Prod.fst).Nodup) :
    ((mergeFold sFS m rm).map Prod.fst).Nodup := by
  induction rm generalizing m with
  | nil => exact h
  | cons hd tl ih =>
    rw [mergeFold_cons]
    exact ih _ (mapSet_keys_nodup _ _ _ h)

example : ipToInt "192.168.1.0" = 3232235776 := by decide

theorem orS_assoc (a b c : String) : orS (orS a b) c = orS a (orS b c) := by
  by_cases ha : a = "" <;> by_cases hb : b = "" <;> simp [orS, ha, hb]

/-- Characterization of one merge of a cycle record into an existing
persisted entry, field by field. -/
theorem mergeStep_some (sFS : Bool) (e : SpaceEntry) (r : HostRecord)
    (hsr : r.segment ≠ "") :
    (e.name ≠ "" → (mergeStep sFS (some e) r).name = e.name) ∧
    (e.name = "" → (mergeStep sFS (some e) r).name =
      (if r.name = "" then r.auto_name else r.name)) ∧
    (sFS = true → (mergeStep sFS (some e) r).segments = r.segment) ∧
    (sFS = false → (mergeStep sFS (some e) r).segments = e.segments) ∧
    (mergeStep sFS (some e) r).auto_name = (if r.auto_name = "" then e.auto_name else r.auto_name) ∧
    (mergeStep sFS (some e) r).mac = (if r.mac = "" then e.mac else r.mac) ∧
    (mergeStep sFS (some e) r).os_guess = (if r.os_guess = "" then e.os_guess else r.os_guess) ∧
    (mergeStep sFS (some e) r).ssh_banner = (if r.ssh_banner = "" then e.ssh_banner else r.ssh_banner) ∧
    (mergeStep sFS (some e) r).smb_banner = (if r.smb_banner = "" then e.smb_banner else r.smb_banner) ∧
    (mergeStep sFS (some e) r).cert_cn = (if r.cert_cn = "" then e.cert_cn else r.cert_cn) ∧
    (mergeStep sFS (some e) r).cert_san = (if r.cert_san = "" then e.cert_san else r.cert_san) ∧
    (mergeStep sFS (some e) r).http_server = (if r.http_server = "" then e.http_server else r.http_server) ∧
    (mergeStep sFS (some e) r).http_powered_by = (if r.http_powered_by = "" then e.http_powered_by else r.http_powered_by) ∧
    (mergeStep sFS (some e) r).http_www_auth = (if r.http_www_auth = "" then e.http_www_auth else r.http_www_auth) ∧
    (mergeStep sFS (some e) r).favicon_hash = (if r.favicon_hash = "" then e.favicon_hash else r.favicon_hash) ∧
    (mergeStep sFS (some e) r).mdns_services = (if r.mdns_services = "" then e.mdns_services else r.mdns_services) ∧
    (mergeStep sFS (some e) r).ssdp_server = (if r.ssdp_server = "" then e.ssdp_server else r.ssdp_server) ∧
    (mergeStep sFS (some e) r).ssdp_usn = (if r.ssdp_usn = "" then e.ssdp_usn else r.ssdp_usn) ∧
    (mergeStep sFS (some e) r).snmp_sysname = (if r.snmp_sysname = "" then e.snmp_sysname else r.snmp_sysname) ∧
    (mergeStep sFS (some e) r).snmp_sysdescr = (if r.snmp_sysdescr = "" then e.snmp_sysdescr else r.snmp_sysdescr) := by
  cases sFS <;>
    simp [mergeStep, orS_empty_right, orS_assoc, hsr, orS] <;>
    by_cases hn : e.name = "" <;> simp [hn] <;>
    and_intros <;> (intro h; exact h.symm)

/-! Lemmas for the 32-bit JS arithmetic of the address enumerator. -/

theorem land_high_mask (n k w : Nat) (hn : n < 2 ^ w) (hk : k ≤ w) :
    n &&& (2 ^ w - 2 ^ k) = n / 2 ^ k * 2 ^ k := by
  apply Nat.eq_of_testBit_eq
  intro i
  have hmask : 2 ^ w - 2 ^ k = 2 ^ k * (2 ^ (w - k) - 1) := by
    rw [Nat.mul_sub, Nat.mul_one, ← pow_add]
    congr 2
    omega
  rw [hmask, Nat.testBit_and, Nat.testBit_mul_pow_two, Nat.testBit_two_pow_sub_one,
    mul_comm (n / 2 ^ k) (2 ^ k), Nat.testBit_mul_pow_two, ← Nat.shiftRight_eq_div_pow,
    Nat.testBit_shiftRight]
  rcases Nat.lt_or_ge i k with hik | hik
  · simp [Nat.not_le_of_lt hik]
  · rcases Nat.lt_or_ge i w with hiw | hiw
    · have hkk : k + (i - k) = i := by omega
      have hlt : i - k < w - k := by omega
      simp [hik, hkk, hlt]
    · have h1 : n.testBit i = false :=
        Nat.testBit_lt_two_pow (lt_of_lt_of_le hn (Nat.pow_le_pow_right (by omega) hiw))
      have h2 : n.testBit (k + (i - k)) = false := by
        have : k + (i - k) = i := by omega
        rw [this, h1]
      simp [h1, h2, hik]

theorem lor_low_bits (n k : Nat) :
    (n / 2 ^ k * 2 ^ k) ||| (2 ^ k - 1) = n / 2 ^ k * 2 ^ k + (2 ^ k - 1) := by
  rw [mul_comm (n / 2 ^ k) (2 ^ k)]
  exact (Nat.mul_add_lt_is_or (Nat.sub_lt (Nat.two_pow_pos k) one_pos) (n / 2 ^ k)).symm

theorem u32_natCast (u : Nat) (h : u < 2 ^ 32) : u32 (u : Int) = (u : Int) := by
  unfold u32
  exact Int.emod_eq_of_lt (Int.natCast_nonneg u) (by exact_mod_cast h)

theorem u32_i32 (a : Int) : u32 (i32 a) = u32 a := by
  unfold i32 u32
  split <;> omega

/-- i32 of an unsigned 32-bit value, as a subtraction. -/
theorem i32_natCast_eq (u : Nat) (h : u < 2 ^ 32) :
    i32 (u : Int) = (u : Int) - (if 2 ^ 31 ≤ u then (2 ^ 32 : Int) else 0) := by
  have h32 : (u : Int) < 2 ^ 32 := by exact_mod_cast h
  unfold i32 u32
  rw [Int.emod_eq_of_lt (Int.natCast_nonneg u) h32]
  by_cases hu : 2 ^ 31 ≤ u
  · rw [if_neg (by push_neg; exact_mod_cast hu), if_pos (by exact_mod_cast hu)]
  · rw [if_pos (by exact_mod_cast (by omega : u < 2 ^ 31)), if_neg hu]
    omega

theorem maskFromPrefix_eq (p : Nat) (hp1 : 1 ≤ p) (hp2 : p ≤ 32) :
    maskFromPrefix p = ((2 ^ 32 - 2 ^ (32 - p) : Nat) : Int) := by
  interval_cases p <;> decide

theorem mask_lt (p : Nat) : 2 ^ 32 - 2 ^ (32 - p) < 2 ^ 32 := by
  have h1 : 1 ≤ 2 ^ (32 - p) := Nat.one_le_two_pow
  omega

theorem blockBase_le (n p : Nat) (hn : n < 2 ^ 32) : blockBase n p ≤ n := by
  unfold blockBase
  exact Nat.div_mul_le_self n _

theorem blockTop_lt (n p : Nat) (hn : n < 2 ^ 32) (hp2 : p ≤ 32) :
    blockBase n p + 2 ^ (32 - p) - 1 < 2 ^ 32 := by
  unfold blockBase
  have ht : (0 : Nat) < 2 ^ (32 - p) := Nat.two_pow_pos _
  have hsplit : 2 ^ p * 2 ^ (32 - p) = 2 ^ 32 := by
    rw [← pow_add]
    congr 1
    omega
  have hx : n / 2 ^ (32 - p) < 2 ^ p := by
    rw [Nat.div_lt_iff_lt_mul ht]
    exact hsplit ▸ hn
  have hmul : (n / 2 ^ (32 - p) + 1) * 2 ^ (32 - p) ≤ 2 ^ 32 := by
    calc (n / 2 ^ (32 - p) + 1) * 2 ^ (32 - p) ≤ 2 ^ p * 2 ^ (32 - p) :=
          Nat.mul_le_mul_right _ hx
      _ = 2 ^ 32 := hsplit
  have hexp : (n / 2 ^ (32 - p) + 1) * 2 ^ (32 - p) =
      n / 2 ^ (32 - p) * 2 ^ (32 - p) + 2 ^ (32 - p) := by ring
  omega

theorem jsAnd_mask (n p : Nat) (hn : n < 2 ^ 32) (hp1 : 1 ≤ p) (hp2 : p ≤ 32) :
    jsAnd (n : Int) (maskFromPrefix p) = i32 ((blockBase n p : Nat) : Int) := by
  unfold jsAnd
  rw [maskFromPrefix_eq p hp1 hp2, u32_natCast n hn, u32_natCast _ (mask_lt p)]
  have hcast : ∀ m : Nat, (Int.ofNat ((m : Int).toNat)) = (m : Int) := by simp
  simp only [Int.toNat_natCast]
  rw [land_high_mask n (32 - p) 32 hn (by omega)]
  rfl

theorem notMask_eq (p : Nat) (hp1 : 1 ≤ p) (hp2 : p ≤ 32) :
    jsUshr (jsNot (maskFromPrefix p)) 0 = ((2 ^ (32 - p) - 1 : Nat) : Int) := by
  unfold jsUshr jsNot
  rw [maskFromPrefix_eq p hp1 hp2, u32_natCast _ (mask_lt p)]
  have h1 : 1 ≤ 2 ^ (32 - p) := Nat.one_le_two_pow
  have h2 : (2 ^ (32 - p) : Nat) ≤ 2 ^ 32 := Nat.pow_le_pow_right (by norm_num) (by omega)
  have heq : (2 ^ 32 - 1 - ((2 ^ 32 - 2 ^ (32 - p) : Nat) : Int)) =
      ((2 ^ (32 - p) - 1 : Nat) : Int) := by
    rw [Nat.cast_sub h2, Nat.cast_sub h1]
    push_cast
    ring
  rw [heq]
  have hlt31 : (2 ^ (32 - p) - 1 : Nat) < 2 ^ 31 := by
    have : (2 ^ (32 - p) : Nat) ≤ 2 ^ 31 := Nat.pow_le_pow_right (by norm_num) (by omega)
    omega
  have hlt32 : (2 ^ (32 - p) - 1 : Nat) < 2 ^ 32 := by
    have : (2 ^ 31 : Nat) < 2 ^ 32 := by norm_num
    omega
  rw [i32_natCast_eq _ hlt32, if_neg (by omega), sub_zero, u32_natCast _ hlt32]
  norm_num

theorem jsOr_broadcast (n p : Nat) (hn : n < 2 ^ 32) (hp1 : 1 ≤ p) (hp2 : p ≤ 32) :
    jsOr (i32 ((blockBase n p : Nat) : Int)) (jsUshr (jsNot (maskFromPrefix p)) 0) =
      i32 ((blockBase n p + 2 ^ (32 - p) - 1 : Nat) : Int) := by
  rw [notMask_eq p hp1 hp2]
  unfold jsOr
  rw [u32_i32]
  have hbb : blockBase n p < 2 ^ 32 :=
    lt_of_le_of_lt (blockBase_le n p hn) hn
  have hlow : (2 ^ (32 - p) - 1 : Nat) < 2 ^ 32 := by
    have h2 : (2 ^ (32 - p) : Nat) ≤ 2 ^ 32 := Nat.pow_le_pow_right (by norm_num) (by omega)
    omega
  rw [u32_natCast _ hbb, u32_natCast _ hlow]
  simp only [Int.toNat_natCast]
  unfold blockBase
  rw [lor_low_bits n (32 - p)]
  have h1 : 1 ≤ 2 ^ (32 - p) := Nat.one_le_two_pow
  have hadd : ∀ bb t : Nat, 1 ≤ t → bb + (t - 1) = bb + t - 1 := by intros; omega
  rw [hadd _ _ h1]
  rfl

theorem intToIp_congr (a b : Int) (h : u32 a = u32 b) : intToIp a = intToIp b := by
  unfold intToIp jsUshr jsAnd
  rw [h]

theorem u32_shift (a j : Nat) (c : Int) (hc : c = 0 ∨ c = 2 ^ 32) (hb : a + j < 2 ^ 32) :
    u32 ((a : Int) - c + (j : Int)) = ((a + j : Nat) : Int) := by
  unfold u32
  rcases hc with rfl | rfl <;> push_cast <;> omega

theorem jsUshr_zero (x : Int) : jsUshr x 0 = u32 x := by
  unfold jsUshr
  norm_num

theorem range_map_eq (a m : Nat) (c : Int) (hc : c = 0 ∨ c = 2 ^ 32)
    (hbound : a + m ≤ 2 ^ 32) :
    (List.range m).map (fun j => intToIp (jsUshr ((a : Int) - c + Int.ofNat j) 0)) =
      (List.range' a m).map (fun u => intToIp ((u : Nat) : Int)) := by
  rw [List.range'_eq_map_range, List.map_map]
  apply List.map_congr_left
  intro j hj
  have hjm : j < m := List.mem_range.1 hj
  show intToIp (jsUshr ((a : Int) - c + Int.ofNat j) 0) = intToIp ((a + j : Nat) : Int)
  rw [jsUshr_zero]
  rw [show ((a : Int) - c + Int.ofNat j) = ((a : Int) - c + (j : Int)) from rfl]
  rw [u32_shift a j c hc (by omega)]

theorem blockHalf (n p : Nat) (hn : n < 2 ^ 32) (hp1 : 1 ≤ p) (hp2 : p ≤ 32)
    (hlow : blockBase n p < 2 ^ 31) :
    blockBase n p + 2 ^ (32 - p) - 1 < 2 ^ 31 := by
  have ht : (0 : Nat) < 2 ^ (32 - p) := Nat.two_pow_pos _
  have hsplit : 2 ^ (p - 1) * 2 ^ (32 - p) = 2 ^ 31 := by
    rw [← pow_add]
    congr 1
    omega
  have hx : n / 2 ^ (32 - p) < 2 ^ (p - 1) := by
    by_contra hge
    push_neg at hge
    have : 2 ^ (p - 1) * 2 ^ (32 - p) ≤ n / 2 ^ (32 - p) * 2 ^ (32 - p) :=
      Nat.mul_le_mul_right _ hge
    rw [hsplit] at this
    exact absurd (lt_of_le_of_lt this hlow) (lt_irrefl _)
  have hmul : (n / 2 ^ (32 - p) + 1) * 2 ^ (32 - p) ≤ 2 ^ 31 := by
    calc (n / 2 ^ (32 - p) + 1) * 2 ^ (32 - p) ≤ 2 ^ (p - 1) * 2 ^ (32 - p) :=
          Nat.mul_le_mul_right _ hx
      _ = 2 ^ 31 := hsplit
  have hexp : (n / 2 ^ (32 - p) + 1) * 2 ^ (32 - p) =
      n / 2 ^ (32 - p) * 2 ^ (32 - p) + 2 ^ (32 - p) := by ring
  unfold blockBase
  omega

theorem enumerate_loop (start stop : Int) (a m : Nat) (c : Int)
    (hc : c = 0 ∨ c = 2 ^ 32) (hb : a + m ≤ 2 ^ 32)
    (hstart : start = (a : Int) - c) (hstop : stop = (a : Int) + (m : Int) - 1 - c)
    (hm : 1 ≤ m) :
    (if start > stop then [] else
      (List.range (stop - start + 1).toNat).map
        (fun j => intToIp (jsUshr (start + Int.ofNat j) 0))) =
      (List.range' a m).map (fun u => intToIp ((u : Nat) : Int)) := by
  rw [hstart, hstop]
  rw [if_neg (by omega)]
  have hcount : ((a : Int) + (m : Int) - 1 - c - ((a : Int) - c) + 1).toNat = m := by omega
  rw [hcount]
  exact range_map_eq a m c hc hb


/-! String split and join lemmas for the serialization round trip. -/

theorem splitOnChar_ne_nil (sep : Char) : ∀ l : List Char, splitOnChar sep l ≠ []
  | [] => by simp [splitOnChar]
  | c :: rest => by
    simp only [splitOnChar]
    cases hsp : splitOnChar sep rest with
    | nil => simp
    | cons hd tl => by_cases hcs : c = sep <;> simp [hcs]

theorem splitOnChar_cons_sep (sep : Char) (l : List Char) :
    splitOnChar sep (sep :: l) = [] :: splitOnChar sep l := by
  simp only [splitOnChar]
  cases hsp : splitOnChar sep l with
  | nil => exact absurd hsp (splitOnChar_ne_nil sep l)
  | cons hd tl => simp

theorem splitOnChar_append_no_sep (sep : Char) (l r : List Char) (h : sep ∉ l) :
    splitOnChar sep (l ++ r) =
      (l ++ (splitOnChar sep r).headD []) :: (splitOnChar sep r).tail := by
  induction l with
  | nil =>
    simp only [List.nil_append]
    cases hr : splitOnChar sep r with
    | nil => exact absurd hr (splitOnChar_ne_nil sep r)
    | cons hd tl => simp
  | cons c cs ih =>
    have hc : c ≠ sep := fun hh => h (hh ▸ List.mem_cons_self c cs)
    have hcs : sep ∉ cs := fun hh => h (List.mem_cons_of_mem c hh)
    simp only [List.cons_append, splitOnChar, List.append_eq]
    rw [ih hcs]
    simp [hc]

theorem splitOnChar_no_sep (sep : Char) (l : List Char) (h : sep ∉ l) :
    splitOnChar sep l = [l] := by
  have := splitOnChar_append_no_sep sep l [] h
  simpa [splitOnChar] using this

/-- Splitting a separator-joined list of separator-free chunks recovers the
chunks. -/
theorem splitOnChar_join (sep : Char) (chunks : List (List Char))
    (hne : chunks ≠ []) (h : ∀ c ∈ chunks, sep ∉ c) :
    splitOnChar sep ((chunks.map (fun c => c ++ [sep])).flatten.dropLast) =
      chunks := by
  induction chunks with
  | nil => exact absurd rfl hne
  | cons hd tl ih =>
    cases tl with
    | nil =>
      simp only [List.map_cons, List.map_nil, List.flatten_cons, List.flatten_nil,
        List.append_nil]
      rw [List.dropLast_concat]
      exact splitOnChar_no_sep sep hd (h _ (List.mem_cons_self _ _))
    | cons hd2 tl2 =>
      have hflat : ((hd :: hd2 :: tl2).map (fun c => c ++ [sep])).flatten =
          (hd ++ [sep]) ++ ((hd2 :: tl2).map (fun c => c ++ [sep])).flatten := by
        simp
      rw [hflat]
      have hne2 : (((hd2 :: tl2).map (fun c => c ++ [sep])).flatten) ≠ [] := by
        simp
      rw [List.dropLast_append_of_ne_nil _ hne2]
      rw [List.append_assoc]
      rw [splitOnChar_append_no_sep sep hd _ (h _ (List.mem_cons_self _ _))]
      rw [show [sep] ++ (((hd2 :: tl2).map (fun c => c ++ [sep])).flatten).dropLast =
        sep :: (((hd2 :: tl2).map (fun c => c ++ [sep])).flatten).dropLast from rfl]
      rw [splitOnChar_cons_sep]
      rw [ih (by simp) (fun c hc => h c (List.mem_cons_of_mem _ hc))]
      simp

theorem splitOnChar_join_full (sep : Char) (chunks : List (List Char))
    (hne : chunks ≠ []) (h : ∀ c ∈ chunks, sep ∉ c) :
    splitOnChar sep ((chunks.map (fun c => c ++ [sep])).flatten) = chunks ++ [[]] := by
  induction chunks with
  | nil => exact absurd rfl hne
  | cons hd tl ih =>
    cases tl with
    | nil =>
      simp only [List.map_cons, List.map_nil, List.flatten_cons, List.flatten_nil,
        List.append_nil]
      rw [splitOnChar_append_no_sep sep hd [sep] (h _ (List.mem_cons_self _ _))]
      rw [splitOnChar_cons_sep]
      simp [splitOnChar]
    | cons hd2 tl2 =>
      have hflat : ((hd :: hd2 :: tl2).map (fun c => c ++ [sep])).flatten =
          hd ++ (sep :: ((hd2 :: tl2).map (fun c => c ++ [sep])).flatten) := by
        simp
      rw [hflat]
      rw [splitOnChar_append_no_sep sep hd _ (h _ (List.mem_cons_self _ _))]
      rw [splitOnChar_cons_sep]
      rw [ih (by simp) (fun c hc => h c (List.mem_cons_of_mem _ hc))]
      simp

theorem stringMk_data (s : String) : String.mk s.data = s := rfl

theorem data_mk (l : List Char) : (String.mk l).data = l := rfl

theorem map_mk_data (vals : List String) :
    vals.map (String.mk ∘ String.data) = vals := by
  calc vals.map (String.mk ∘ String.data) = vals.map id :=
        List.map_congr_left (fun v _ => stringMk_data v)
    _ = vals := List.map_id vals

theorem joinSep_data (sep : Char) : ∀ vals : List String, vals ≠ [] →
    (joinSep (String.mk [sep]) vals).data =
      ((vals.map String.data).map (fun c => c ++ [sep])).flatten.dropLast
  | [], hne => absurd rfl hne
  | [x], _ => by
    simp [joinSep, List.dropLast_concat]
  | x :: y :: t, _ => by
    have hne2 : (((y :: t).map String.data).map (fun c => c ++ [sep])).flatten ≠ [] := by
      simp
    have ih := joinSep_data sep (y :: t) (by simp)
    have hR : (((x :: y :: t).map String.data).map (fun c => c ++ [sep])).flatten =
        (x.data ++ [sep]) ++ (((y :: t).map String.data).map (fun c => c ++ [sep])).flatten := by
      simp
    rw [hR, List.dropLast_append_of_ne_nil _ hne2, ← ih]
    simp only [joinSep, String.data_append, data_mk]

theorem joinSep_data_full (sep : Char) : ∀ vals : List String, vals ≠ [] →
    (joinSep (String.mk [sep]) vals ++ String.mk [sep]).data =
      ((vals.map String.data).map (fun c => c ++ [sep])).flatten
  | [], hne => absurd rfl hne
  | [x], _ => by simp [joinSep]
  | x :: y :: t, _ => by
    have ih := joinSep_data_full sep (y :: t) (by simp)
    have hR : (((x :: y :: t).map String.data).map (fun c => c ++ [sep])).flatten =
        (x.data ++ [sep]) ++ (((y :: t).map String.data).map (fun c => c ++ [sep])).flatten := by
      simp
    rw [hR, ← ih]
    simp only [joinSep, String.data_append, data_mk]
    simp [String.data_append]

theorem splitString_joinSep (sep : Char) (vals : List String) (hne : vals ≠ [])
    (h : ∀ v ∈ vals, sep ∉ v.data) :
    splitString sep (joinSep (String.mk [sep]) vals) = vals := by
  unfold splitString
  rw [joinSep_data sep vals hne]
  rw [splitOnChar_join sep (vals.map String.data) (by simpa using hne)
    (by intro c hc; rcases List.mem_map.1 hc with ⟨v, hv, rfl⟩; exact h v hv)]
  rw [List.map_map]
  exact map_mk_data vals

theorem dropTrailingCr_no_cr (l : List Char) (h : '\r' ∉ l) : dropTrailingCr l = l := by
  unfold dropTrailingCr
  cases hl : l.getLast? with
  | none => rfl
  | some c =>
    have hmem : c ∈ l := List.mem_of_mem_getLast? (by rw [hl]; rfl)
    have hc : c ≠ '\r' := fun hh => h (hh ▸ hmem)
    split <;> simp_all

theorem stripCrs_no_cr : ∀ pieces : List (List Char),
    (∀ p ∈ pieces, '\r' ∉ p) → stripCrs pieces = pieces
  | [], _ => rfl
  | [p], _ => rfl
  | p :: q :: t, h => by
    simp only [stripCrs]
    rw [dropTrailingCr_no_cr p (h p (List.mem_cons_self _ _)),
      stripCrs_no_cr (q :: t) (fun x hx => h x (List.mem_cons_of_mem _ hx))]

theorem splitLines_join (rows : List String) (hne : rows ≠ [])
    (h : ∀ r ∈ rows, ∀ c ∈ r.data, c ≠ '\n' ∧ c ≠ '\r') :
    splitLinesJs (joinSep "\n" rows ++ "\n") = rows ++ [""] := by
  unfold splitLinesJs
  have hnl : ("\n" : String) = String.mk ['\n'] := rfl
  rw [hnl, joinSep_data_full '\n' rows hne]
  rw [splitOnChar_join_full '\n' (rows.map String.data) (by simpa using hne)
    (by
      intro c hc
      rcases List.mem_map.1 hc with ⟨v, hv, rfl⟩
      intro hmem
      exact (h v hv '\n' hmem).1 rfl)]
  rw [stripCrs_no_cr _ (by
    intro p hp
    rcases List.mem_append.1 hp with hp1 | hp2
    · rcases List.mem_map.1 hp1 with ⟨v, hv, rfl⟩
      intro hmem
      exact (h v hv '\r' hmem).2 rfl
    · simp at hp2
      subst hp2
      simp)]
  rw [List.map_append, List.map_map, map_mk_data]
  rfl

theorem foldr_no_quote : ∀ l : List Char, (∀ c ∈ l, c ≠ '"') →
    l.foldr (fun c acc => if c = '"' then '"' :: '"' :: acc else c :: acc) [] = l
  | [], _ => rfl
  | c :: cs, h => by
    simp only [List.foldr_cons]
    rw [if_neg (h c (List.mem_cons_self _ _)),
      foldr_no_quote cs (fun x hx => h x (List.mem_cons_of_mem _ hx))]

theorem csvEscape_clean (s : String)
    (h : ∀ c ∈ s.data, c ≠ ',' ∧ c ≠ '"' ∧ c ≠ '\n' ∧ c ≠ '\r') :
    csvEscape s = s := by
  unfold csvEscape
  rw [foldr_no_quote s.data (fun c hc => (h c hc).2.1)]
  have hany : (s.data.any fun c => c == '"' || c == ',' || c == '\r' || c == '\n') = false := by
    rw [List.any_eq_false]
    intro c hc
    obtain ⟨h1, h2, h3, h4⟩ := h c hc
    simp [h1, h2, h3, h4]
  simp only [hany, Bool.false_eq_true, if_false]

/-! Lemmas for the reconciliation fixed point. -/

theorem mapSet_append_of_not_mem (m : List (String × α)) (k : String) (v : α)
    (h : k ∉ m.map Prod.fst) : mapSet m k v = m ++ [(k, v)] := by
  induction m with
  | nil => rfl
  | cons hd tl ih =>
    simp only [List.map_cons, List.mem_cons] at h
    push_neg at h
    obtain ⟨k0, v0⟩ := hd
    simp only [mapSet, if_neg (Ne.symm h.1), List.cons_append]
    rw [ih h.2]

theorem mapGet_some_imp_mem (m : List (String × α)) (k : String) (v : α)
    (h : mapGet m k = some v) : k ∈ m.map Prod.fst := by
  induction m with
  | nil => simp [mapGet] at h
  | cons hd tl ih =>
    obtain ⟨k0, v0⟩ := hd
    by_cases hk : k0 = k
    · simp [hk]
    · simp only [mapGet, if_neg hk] at h
      simp [ih h]

theorem mapGet_not_mem (m : List (String × α)) (k : String)
    (h : k ∉ m.map Prod.fst) : mapGet m k = none := by
  induction m with
  | nil => rfl
  | cons hd tl ih =>
    simp only [List.map_cons, List.mem_cons] at h
    push_neg at h
    obtain ⟨k0, v0⟩ := hd
    simp only [mapGet, if_neg (Ne.symm h.1)]
    exact ih h.2

/-- Lookup in the association list rebuilt from a function over a key
list. -/
theorem mapGet_tabulate (f : String → SpaceEntry) : ∀ (S : List String) (ip : String),
    ip ∈ S → mapGet (S.map (fun k => (k, f k))) ip = some (f ip)
  | [], ip, h => absurd h (List.not_mem_nil ip)
  | k :: S, ip, h => by
    by_cases hk : k = ip
    · subst hk
      simp [mapGet]
    · rcases List.mem_cons.1 h with rfl | hS
      · exact absurd rfl hk
      · simp only [List.map_cons, mapGet, if_neg hk]
        exact mapGet_tabulate f S ip hS

theorem mapGet_tabulate_not_mem (f : String → SpaceEntry) (S : List String) (ip : String)
    (h : ip ∉ S) : mapGet (S.map (fun k => (k, f k))) ip = none := by
  apply mapGet_not_mem
  simpa using h

theorem mergeFold_keys_of_subset (sFS : Bool) :
    ∀ (rm : List (String × HostRecord)) (m : List (String × SpaceEntry)),
    (∀ kv ∈ rm, kv.1 ∈ m.map Prod.fst) →
    (mergeFold sFS m rm).map Prod.fst = m.map Prod.fst
  | [], m, _ => rfl
  | hd :: tl, m, h => by
    rw [mergeFold_cons]
    rw [mergeFold_keys_of_subset sFS tl _ (by
      intro kv hkv
      rw [mapSet_keys]
      rw [if_pos (h hd (List.mem_cons_self _ _))]
      exact h kv (List.mem_cons_of_mem _ hkv))]
    rw [mapSet_keys, if_pos (h hd (List.mem_cons_self _ _))]

theorem mapGet_set (m : List (String × α)) (k k' : String) (v : α) :
    mapGet (mapSet m k v) k' = if k = k' then some v else mapGet m k' := by
  by_cases h : k = k'
  · subst h
    simp [mapGet_set_self]
  · rw [if_neg h, mapGet_set_ne m k k' v (fun hh => h hh.symm)]

theorem mergeFold_get_congr (sFS : Bool) :
    ∀ (rm : List (String × HostRecord)) (m1 m2 : List (String × SpaceEntry)),
    (∀ ip, mapGet m1 ip = mapGet m2 ip) →
    ∀ ip, mapGet (mergeFold sFS m1 rm) ip = mapGet (mergeFold sFS m2 rm) ip
  | [], m1, m2, h => h
  | hd :: tl, m1, m2, h => by
    intro ip
    rw [mergeFold_cons, mergeFold_cons]
    apply mergeFold_get_congr sFS tl
    intro ip'
    rw [mapGet_set, mapGet_set, h hd.1, h ip']

theorem orS_self (a : String) : orS a a = a := by
  by_cases h : a = "" <;> simp [orS, h]

theorem orS_absorb (a b : String) : orS a (orS a b) = orS a b := by
  by_cases h : a = "" <;> simp [orS, h]

/-- mergeStep with no existing entry, written as an explicit record. -/
theorem mergeStep_none_eq (sFS : Bool) (r : HostRecord) :
    mergeStep sFS none r =
      ⟨if sFS ∧ r.segment ≠ "" then r.segment else "",
       orS (orS r.name r.auto_name) "", orS r.auto_name "", orS r.mac "",
       orS r.os_guess "", orS r.ssh_banner "", orS r.smb_banner "",
       orS r.cert_cn "", orS r.cert_san "", orS r.http_server "",
       orS r.http_powered_by "", orS r.http_www_auth "", orS r.favicon_hash "",
       orS r.mdns_services "", orS r.ssdp_server "", orS r.ssdp_usn "",
       orS r.snmp_sysname "", orS r.snmp_sysdescr ""⟩ := rfl

/-- mergeStep with an existing entry, written as an explicit record. -/
theorem mergeStep_some_eq (sFS : Bool) (e : SpaceEntry) (r : HostRecord) :
    mergeStep sFS (some e) r =
      ⟨if sFS ∧ r.segment ≠ "" then r.segment else orS e.segments "",
       orS (orS (orS e.name r.name) r.auto_name) "",
       orS (orS r.auto_name e.auto_name) "", orS (orS r.mac e.mac) "",
       orS (orS r.os_guess e.os_guess) "", orS (orS r.ssh_banner e.ssh_banner) "",
       orS (orS r.smb_banner e.smb_banner) "", orS (orS r.cert_cn e.cert_cn) "",
       orS (orS r.cert_san e.cert_san) "", orS (orS r.http_server e.http_server) "",
       orS (orS r.http_powered_by e.http_powered_by) "",
       orS (orS r.http_www_auth e.http_www_auth) "",
       orS (orS r.favicon_hash e.favicon_hash) "",
       orS (orS r.mdns_services e.mdns_services) "",
       orS (orS r.ssdp_server e.ssdp_server) "", orS (orS r.ssdp_usn e.ssdp_usn) "",
       orS (orS r.snmp_sysname e.snmp_sysname) "",
       orS (orS r.snmp_sysdescr e.snmp_sysdescr) ""⟩ := rfl

/-- Merging the same cycle record a second time into the entry the first
merge produced changes nothing. -/
theorem mergeStep_idem (sFS : Bool) (x : Option SpaceEntry) (r : HostRecord) :
    mergeStep sFS (some (mergeStep sFS x r)) r = mergeStep sFS x r := by
  have habs : ∀ a b : String, orS (orS a (orS (orS a b) "")) "" = orS (orS a b) "" := by
    intro a b
    by_cases ha : a = "" <;> by_cases hb : b = "" <;> simp [orS, ha, hb]
  have habs0 : ∀ a : String, orS (orS a (orS a "")) "" = orS a "" := by
    intro a
    by_cases ha : a = "" <;> simp [orS, ha]
  have hname : ∀ en a b : String,
      orS (orS (orS (orS (orS (orS en a) b) "") a) b) "" =
        orS (orS (orS en a) b) "" := by
    intro en a b
    by_cases hen : en = "" <;> by_cases ha : a = "" <;> by_cases hb : b = "" <;>
      simp [orS, hen, ha, hb]
  have hname0 : ∀ a b : String,
      orS (orS (orS (orS (orS a b) "") a) b) "" = orS (orS a b) "" := by
    intro a b
    by_cases ha : a = "" <;> by_cases hb : b = "" <;> simp [orS, ha, hb]
  cases x with
  | none =>
    rw [mergeStep_none_eq sFS r, mergeStep_some_eq]
    dsimp only
    simp only [SpaceEntry.mk.injEq]
    and_intros
    · split
      · rfl
      · simp [orS]
    · exact hname0 r.name r.auto_name
    · exact habs0 r.auto_name
    · exact habs0 r.mac
    · exact habs0 r.os_guess
    · exact habs0 r.ssh_banner
    · exact habs0 r.smb_banner
    · exact habs0 r.cert_cn
    · exact habs0 r.cert_san
    · exact habs0 r.http_server
    · exact habs0 r.http_powered_by
    · exact habs0 r.http_www_auth
    · exact habs0 r.favicon_hash
    · exact habs0 r.mdns_services
    · exact habs0 r.ssdp_server
    · exact habs0 r.ssdp_usn
    · exact habs0 r.snmp_sysname
    · exact habs0 r.snmp_sysdescr
  | some e =>
    rw [mergeStep_some_eq sFS e r, mergeStep_some_eq]
    dsimp only
    simp only [SpaceEntry.mk.injEq]
    and_intros
    · split
      · rfl
      · exact orS_empty_right _
    · exact hname e.name r.name r.auto_name
    · exact habs r.auto_name e.auto_name
    · exact habs r.mac e.mac
    · exact habs r.os_guess e.os_guess
    · exact habs r.ssh_banner e.ssh_banner
    · exact habs r.smb_banner e.smb_banner
    · exact habs r.cert_cn e.cert_cn
    · exact habs r.cert_san e.cert_san
    · exact habs r.http_server e.http_server
    · exact habs r.http_powered_by e.http_powered_by
    · exact habs r.http_www_auth e.http_www_auth
    · exact habs r.favicon_hash e.favicon_hash
    · exact habs r.mdns_services e.mdns_services
    · exact habs r.ssdp_server e.ssdp_server
    · exact habs r.ssdp_usn e.ssdp_usn
    · exact habs r.snmp_sysname e.snmp_sysname
    · exact habs r.snmp_sysdescr e.snmp_sysdescr

/-- On a clean entry, a serialized row is just the comma-join of the IP and
the raw field values. -/
theorem entryRow_clean (ip : String) (e : SpaceEntry)
    (hip : cleanField ip) (he : cleanEntry e) :
    entryRow ip e = joinSep "," (ip :: entryValues e) := by
  unfold entryRow
  have h1 : [ip, orS e.segments "", orS e.name "", orS e.auto_name "", orS e.mac "",
      orS e.os_guess "", orS e.ssh_banner "", orS e.smb_banner "",
      orS e.cert_cn "", orS e.cert_san "", orS e.http_server "",
      orS e.http_powered_by "", orS e.http_www_auth "", orS e.favicon_hash "",
      orS e.mdns_services "", orS e.ssdp_server "", orS e.ssdp_usn "",
      orS e.snmp_sysname "", orS e.snmp_sysdescr ""] = ip :: entryValues e := by
    simp [orS_empty_right, entryValues]
  rw [h1]
  refine congrArg (joinSep ",") ?_
  calc (ip :: entryValues e).map csvEscape = (ip :: entryValues e).map id :=
        List.map_congr_left (by
          intro v hv
          rcases List.mem_cons.1 hv with rfl | hv2
          · exact csvEscape_clean v hip.1
          · exact csvEscape_clean v (he v hv2).1)
    _ = ip :: entryValues e := List.map_id _

/-- Every character of a joined list comes from the separator or from one of
the joined values. -/
theorem mem_joinSep_data (sep : String) :
    ∀ vals : List String, ∀ c ∈ (joinSep sep vals).data,
      c ∈ sep.data ∨ ∃ v ∈ vals, c ∈ v.data
  | [], c, hc => by simp [joinSep] at hc
  | [x], c, hc => by
    right
    exact ⟨x, List.mem_singleton_self x, hc⟩
  | x :: y :: t, c, hc => by
    simp only [joinSep, String.data_append, List.mem_append] at hc
    rcases hc with (hx | hs) | hrest
    · exact Or.inr ⟨x, List.mem_cons_self _ _, hx⟩
    · exact Or.inl hs
    · rcases mem_joinSep_data sep (y :: t) c hrest with hs | ⟨v, hv, hcv⟩
      · exact Or.inl hs
      · exact Or.inr ⟨v, List.mem_cons_of_mem _ hv, hcv⟩

/-- A join of at least two values contains its separator character. -/
theorem sep_mem_joinSep (sep : Char) (x y : String) (t : List String) :
    sep ∈ (joinSep (String.mk [sep]) (x :: y :: t)).data := by
  simp [joinSep, String.data_append, data_mk]

/-- The trim of a character list is empty exactly when every character is
JS whitespace. -/
theorem jsTrimList_eq_nil_iff (l : List Char) :
    jsTrimList l = [] ↔ ∀ c ∈ l, isJsSpace c = true := by
  unfold jsTrimList
  rw [List.reverse_eq_nil_iff, List.dropWhile_eq_nil_iff]
  constructor
  · intro h c hc
    have hc2 : c ∈ l.takeWhile isJsSpace ++ l.dropWhile isJsSpace := by
      rw [List.takeWhile_append_dropWhile]
      exact hc
    rcases List.mem_append.1 hc2 with h1 | h2
    · exact List.mem_takeWhile_imp h1
    · exact h c (List.mem_reverse.2 h2)
  · intro h c hc
    exact h c ((List.dropWhile_sublist isJsSpace).subset (List.mem_reverse.1 hc))

/-- A string holding any non-whitespace character does not trim to empty. -/
theorem jsTrim_ne_empty (s : String) (c : Char) (hc : c ∈ s.data)
    (hns : isJsSpace c = false) : ¬(jsTrim s = "") := by
  intro h
  have h2 : jsTrimList s.data = [] := congrArg String.data h
  rw [jsTrimList_eq_nil_iff] at h2
  rw [h2 c hc] at hns
  simp at hns

/-- Parsing back a row whose values are the IP followed by an entry's raw
field values under the canonical header recovers the entry. -/
theorem rowEntry_round (ip : String) (e : SpaceEntry) :
    rowEntry allowedKeys (ip :: entryValues e) = e := by
  have h : rowEntry allowedKeys (ip :: entryValues e) =
      ⟨orS e.segments "", orS e.name "", orS e.auto_name "", orS e.mac "",
       orS e.os_guess "", orS e.ssh_banner "", orS e.smb_banner "",
       orS e.cert_cn "", orS e.cert_san "", orS e.http_server "",
       orS e.http_powered_by "", orS e.http_www_auth "", orS e.favicon_hash "",
       orS e.mdns_services "", orS e.ssdp_server "", orS e.ssdp_usn "",
       orS e.snmp_sysname "", orS e.snmp_sysdescr ""⟩ := rfl
  rw [h]
  simp [orS_empty_right]

/-- Under the canonical header the ip column of a row is its first value. -/
theorem rowValue_ip (vs : List String) :
    rowValue allowedKeys vs "ip" = vs.getD 0 "" := rfl

/-- The row loop of parseSpaceCsv, run on rows serialized from clean
entries under the canonical header, appends exactly the serialized
associations to the accumulator. -/
theorem parseRows_spec (f : String → SpaceEntry) :
    ∀ (S : List String) (acc : List (String × SpaceEntry)),
    (∀ ip ∈ S, cleanField ip ∧ isValidIp ip = true ∧ cleanEntry (f ip)) →
    (∀ ip ∈ S, ip ∉ acc.map Prod.fst) →
    S.Nodup →
    parseRows allowedKeys (S.map (fun ip => entryRow ip (f ip))) acc =
      some (acc ++ S.map (fun ip => (ip, f ip)))
  | [], acc, _, _, _ => by simp [parseRows]
  | ip :: S, acc, hclean, hacc, hnodup => by
    obtain ⟨hipc, hipv, hec⟩ := hclean ip (List.mem_cons_self _ _)
    have hrow : entryRow ip (f ip) = joinSep "," (ip :: entryValues (f ip)) :=
      entryRow_clean ip (f ip) hipc hec
    have hsplit : splitString ',' (entryRow ip (f ip)) = ip :: entryValues (f ip) := by
      rw [hrow]
      have hcomma : ("," : String) = String.mk [','] := rfl
      rw [hcomma]
      apply splitString_joinSep
      · simp
      · intro v hv
        rcases List.mem_cons.1 hv with rfl | hv2
        · intro hmem
          exact ((hipc.1 _ hmem).1 rfl)
        · intro hmem
          exact (((hec v hv2).1 _ hmem).1 rfl)
    have htrim : (ip :: entryValues (f ip)).map jsTrim = ip :: entryValues (f ip) := by
      calc (ip :: entryValues (f ip)).map jsTrim
            = (ip :: entryValues (f ip)).map id :=
            List.map_congr_left (by
              intro v hv
              rcases List.mem_cons.1 hv with rfl | hv2
              · exact hipc.2
              · exact (hec v hv2).2)
        _ = _ := List.map_id _
    have hlen : ¬((ip :: entryValues (f ip)).length < 3) := by
      simp [entryValues]
    have hipne : ip ≠ "" := by
      intro h
      rw [h] at hipv
      exact absurd hipv (by decide)
    have hnotmem : ip ∉ S := (List.nodup_cons.1 hnodup).1
    rw [List.map_cons]
    rw [parseRows]
    rw [hsplit]
    rw [htrim]
    rw [if_neg hlen]
    dsimp only
    rw [rowValue_ip, List.getD_cons_zero, orS_empty_right]
    rw [if_neg hipne]
    rw [if_neg (not_not_intro hipv)]
    rw [rowEntry_round]
    rw [mapSet_append_of_not_mem acc ip (f ip) (hacc ip (List.mem_cons_self _ _))]
    rw [parseRows_spec f S (acc ++ [(ip, f ip)])
      (fun x hx => hclean x (List.mem_cons_of_mem _ hx))
      (by
        intro x hx
        rw [List.map_append, List.mem_append]
        push_neg
        refine ⟨hacc x (List.mem_cons_of_mem _ hx), ?_⟩
        simp only [List.map_cons, List.map_nil, List.mem_singleton]
        intro hcontra
        exact hnotmem (hcontra ▸ hx))
      (List.nodup_cons.1 hnodup).2]
    simp

set_option maxRecDepth 10000 in
/-- The canonical header parses and normalizes to exactly the allowed keys. -/
theorem headers_eq :
    (splitString ',' (jsTrim spaceHeader)).map jsTrim = allowedKeys := by
  decide

set_option maxRecDepth 10000 in
theorem spaceHeader_no_break : ∀ c ∈ spaceHeader.data, c ≠ '\n' ∧ c ≠ '\r' := by
  decide

set_option maxRecDepth 10000 in
theorem spaceHeader_nonblank : (!(jsTrim spaceHeader == "")) = true := by
  decide

/-- Re-reading the file content updateSpaceCsv emits for clean entries
under distinct valid IPs recovers exactly the serialized map. -/
theorem parseSpaceCsv_out (S : List String) (f : String → SpaceEntry)
    (hclean : ∀ ip ∈ S, cleanField ip ∧ isValidIp ip = true ∧ cleanEntry (f ip))
    (hnodup : S.Nodup) :
    parseSpaceCsv
      (joinSep "\n" (spaceHeader :: S.map (fun ip => entryRow ip (f ip))) ++ "\n") =
      some (S.map (fun ip => (ip, f ip))) := by
  have hrowclean : ∀ ip ∈ S, ∀ c ∈ (entryRow ip (f ip)).data,
      c ≠ ',' → c ∈ (ip :: entryValues (f ip)).flatMap String.data := by
    intro ip hip c hc hne
    obtain ⟨hipc, _, hec⟩ := hclean ip hip
    rw [entryRow_clean ip (f ip) hipc hec] at hc
    rcases mem_joinSep_data "," (ip :: entryValues (f ip)) c hc with hs | ⟨v, hv, hcv⟩
    · exact absurd (List.mem_singleton.1 hs) hne
    · exact List.mem_flatMap.2 ⟨v, hv, hcv⟩
  have hnobreak : ∀ r ∈ spaceHeader :: S.map (fun ip => entryRow ip (f ip)),
      ∀ c ∈ r.data, c ≠ '\n' ∧ c ≠ '\r' := by
    intro r hr c hc
    rcases List.mem_cons.1 hr with rfl | hr2
    · exact spaceHeader_no_break c hc
    · rcases List.mem_map.1 hr2 with ⟨ip, hip, rfl⟩
      obtain ⟨hipc, _, hec⟩ := hclean ip hip
      by_cases hcm : c = ','
      · subst hcm
        exact ⟨by decide, by decide⟩
      · rcases List.mem_flatMap.1 (hrowclean ip hip c hc hcm) with ⟨v, hv, hcv⟩
        rcases List.mem_cons.1 hv with rfl | hv2
        · exact ⟨(hipc.1 c hcv).2.2.1, (hipc.1 c hcv).2.2.2⟩
        · exact ⟨((hec v hv2).1 c hcv).2.2.1, ((hec v hv2).1 c hcv).2.2.2⟩
  have hlines : splitLinesJs
      (joinSep "\n" (spaceHeader :: S.map (fun ip => entryRow ip (f ip))) ++ "\n") =
      (spaceHeader :: S.map (fun ip => entryRow ip (f ip))) ++ [""] :=
    splitLines_join _ (by simp) hnobreak
  have hrow_nonblank : ∀ ip ∈ S, (!(jsTrim (entryRow ip (f ip)) == "")) = true := by
    intro ip hip
    obtain ⟨hipc, _, hec⟩ := hclean ip hip
    have hmem : ',' ∈ (entryRow ip (f ip)).data := by
      rw [entryRow_clean ip (f ip) hipc hec]
      exact sep_mem_joinSep ',' ip (f ip).segments _
    have := jsTrim_ne_empty (entryRow ip (f ip)) ',' hmem (by decide)
    simpa using this
  have hfilter : ((spaceHeader :: S.map (fun ip => entryRow ip (f ip))) ++ [""]).filter
      (fun l => !(jsTrim l == "")) =
      spaceHeader :: S.map (fun ip => entryRow ip (f ip)) := by
    rw [List.filter_append, List.filter_cons, if_pos spaceHeader_nonblank]
    have h1 : (S.map (fun ip => entryRow ip (f ip))).filter (fun l => !(jsTrim l == "")) =
        S.map (fun ip => entryRow ip (f ip)) := by
      rw [List.filter_eq_self]
      intro r hr
      rcases List.mem_map.1 hr with ⟨ip, hip, rfl⟩
      exact hrow_nonblank ip hip
    have h2 : ([""] : List String).filter (fun l => !(jsTrim l == "")) = [] := by decide
    rw [h1, h2, List.append_nil]
  unfold parseSpaceCsv
  rw [hlines, hfilter]
  dsimp only
  rw [headers_eq]
  rw [if_neg (by decide : ¬¬(allowedKeys.contains "ip" = true))]
  have hnorm : allowedKeys.map normalizeKey = allowedKeys := by decide
  rw [hnorm]
  rw [if_neg (by decide : ¬¬(allowedKeys.any (fun v => v == "segments") = true))]
  rw [if_neg (by decide : ¬¬(allowedKeys.any (fun v => v == "name") = true))]
  rw [if_neg (by decide : ¬¬(allowedKeys.all (fun v => allowedKeys.contains v) = true))]
  rw [parseRows_spec f S [] hclean (by simp) hnodup]
  simp

theorem mapGet_mem (m : List (String × α)) (k : String) (v : α)
    (h : mapGet m k = some v) : (k, v) ∈ m := by
  induction m with
  | nil => simp [mapGet] at h
  | cons hd tl ih =>
    obtain ⟨k0, v0⟩ := hd
    by_cases hk : k0 = k
    · subst hk
      simp only [mapGet, eq_self_iff_true, if_true, Option.some.injEq] at h
      subst h
      exact List.mem_cons_self _ _
    · simp only [mapGet, if_neg hk] at h
      exact List.mem_cons_of_mem _ (ih h)

theorem mapGet_isSome_of_mem (m : List (String × α)) (k : String)
    (h : k ∈ m.map Prod.fst) : ∃ v, mapGet m k = some v := by
  induction m with
  | nil => simp at h
  | cons hd tl ih =>
    obtain ⟨k0, v0⟩ := hd
    by_cases hk : k0 = k
    · exact ⟨v0, by simp [mapGet, hk]⟩
    · simp only [List.map_cons, List.mem_cons] at h
      rcases h with h1 | h2
      · exact absurd h1.symm hk
      · obtain ⟨v, hv⟩ := ih h2
        exact ⟨v, by simp [mapGet, if_neg hk, hv]⟩

theorem mem_mergeFold_keys_of_mem (sFS : Bool) :
    ∀ (rm : List (String × HostRecord)) (m : List (String × SpaceEntry)) (k : String),
    k ∈ m.map Prod.fst → k ∈ (mergeFold sFS m rm).map Prod.fst
  | [], _, _, h => h
  | hd :: tl, m, k, h => by
    rw [mergeFold_cons]
    apply mem_mergeFold_keys_of_mem sFS tl
    rw [mapSet_keys]
    split
    · exact h
    · exact List.mem_append.2 (Or.inl h)

/-- Every key of the cycle record map ends up among the merged map's keys. -/
theorem mergeFold_keys_superset (sFS : Bool) :
    ∀ (rm : List (String × HostRecord)) (m : List (String × SpaceEntry)),
    ∀ kv ∈ rm, kv.1 ∈ (mergeFold sFS m rm).map Prod.fst
  | hd :: tl, m, kv, hkv => by
    rw [mergeFold_cons]
    rcases List.mem_cons.1 hkv with rfl | htl
    · apply mem_mergeFold_keys_of_mem sFS tl
      rw [mapSet_keys]
      split
      · assumption
      · exact List.mem_append.2 (Or.inr (List.mem_singleton_self _))
    · exact mergeFold_keys_superset sFS tl _ kv htl

/-- Folding the cycle records into any map that already agrees pointwise
with a merge fixed point changes nothing pointwise. -/
theorem mergeFold_second (sFS : Bool) :
    ∀ (rm : List (String × HostRecord)) (m merged : List (String × SpaceEntry)),
    (∀ k, mapGet m k = mapGet merged k) →
    (∀ kv ∈ rm, ∃ x, mapGet merged kv.1 = some (mergeStep sFS x kv.2)) →
    ∀ k, mapGet (mergeFold sFS m rm) k = mapGet merged k
  | [], m, merged, hm, _ => hm
  | hd :: tl, m, merged, hm, hfix => by
    obtain ⟨x, hx⟩ := hfix hd (List.mem_cons_self _ _)
    rw [mergeFold_cons]
    apply mergeFold_second sFS tl _ merged _
      (fun kv hkv => hfix kv (List.mem_cons_of_mem _ hkv))
    intro k
    rw [mapGet_set]
    split
    · rename_i heq
      subst heq
      rw [hx, hm hd.1, hx, mergeStep_idem]
    · exact hm k

/-- The content updateSpaceCsv serializes, with its lets spelled out. -/
theorem updateSpaceCsv_eq (spaceMap : List (String × SpaceEntry))
    (rm : List (String × HostRecord)) (sFS : Bool) :
    updateSpaceCsv spaceMap rm sFS =
      joinSep "\n"
        (spaceHeader ::
          (sortIpKeys ((mergeFold sFS spaceMap rm).map Prod.fst)).map
            (fun ip => entryRow ip
              ((mapGet (mergeFold sFS spaceMap rm) ip).getD emptyEntry))) ++ "\n" := rfl

/-! Claim theorems. -/

/-- C9: for every item list (of any length), every positive width limit and
every worker schedule, the bounded-concurrency scheduler of
runWithConcurrency never has more than `limit` workers in flight: in every
state reachable from the initial state, `active` is at most the limit (a
start transition is enabled only when `active < limit`, so further work
waits until a slot frees). -/
theorem claim_C9 (total limit : Nat) (s : PoolState) (hpos : 0 < limit)
    (h : poolReachable total limit s) : s.active ≤ limit := by
  induction h with
  | refl => exact Nat.zero_le _
  | tail hreach hstep ih =>
    cases hstep with
    | start hA hI => exact hA
    | finish hA => exact Nat.le_trans (Nat.sub_le _ _) ih

/-- C9 witness: the scheduler state after launching one of two items under
width 1 is reachable and respects the bound. -/
theorem claim_C9_witness : PoolState.active ⟨1, 1⟩ ≤ 1 :=
  claim_C9 2 1 ⟨1, 1⟩ (by decide)
    (Relation.ReflTransGen.single (PoolStep.start ⟨0, 0⟩ (by decide) (by decide)))

/-- C2: a persisted entry's non-empty name is never replaced by an
auto-derived value: the record a cycle emits for that entry still carries
the persisted name (the naming chain writes only auto_name/source, and
finalization fills only an empty name), and the reconciler's merge keeps
the persisted name whatever the cycle's record holds. -/
theorem claim_C2 (o : SurveyOptions) (seg ip : String) (e : SpaceEntry)
    (mac : Option String) (ttl : Nat) (ssdp : Option (String × String))
    (ep : EnrichProbes) (np : NamingProbes) (sm : List (String × List String))
    (sFS : Bool) (r : HostRecord) (hname : e.name ≠ "") :
    (surveyRecord o seg ip (some e) mac ttl ssdp ep np sm).name = e.name ∧
    (mergeStep sFS (some e) r).name = e.name := by
  constructor
  · have hx : (resolveNaming o np sm
        (enrichRecord o ep (applySsdp ssdp (makeRecord seg ip (some e) mac ttl)))).name
        = e.name := by
      simp [makeRecord, orS_of_ne _ _ hname]
    unfold surveyRecord finalizeRecord
    rw [markManual_name, fillNameFromAuto_name_of_ne _ (by rw [hx]; exact hname), hx]
  · simp [mergeStep, orS_of_ne _ _ hname]

/-- C2 witness: a concrete entry named Router1 keeps its name through a full
cycle pipeline and through the merge. -/
theorem claim_C2_witness :
    (surveyRecord allFlagsOn "LAN" "10.0.0.1"
        (some { emptyEntry with name := "Router1" }) none 64 none noProbes
        ⟨"", "", ""⟩ []).name = ({ emptyEntry with name := "Router1" } : SpaceEntry).name ∧
    (mergeStep false (some { emptyEntry with name := "Router1" }) default).name
      = ({ emptyEntry with name := "Router1" } : SpaceEntry).name :=
  claim_C2 allFlagsOn "LAN" "10.0.0.1" { emptyEntry with name := "Router1" }
    none 64 none noProbes ⟨"", "", ""⟩ [] false default (by decide)

/-- C1 counterexample: a persisted entry named Router1 whose host answers
reverse DNS with unknown-host is emitted with source rdns, not manual: the
finalization marks manual only when the chain produced nothing, so the
claim's "source is manual regardless of what the chain found" is false on
the code. -/
theorem claim_C1_counterexample :
    ({ emptyEntry with name := "Router1" } : SpaceEntry).name = "Router1" ∧
    (surveyRecord allFlagsOn "LAN" "192.168.1.7"
        (some { emptyEntry with name := "Router1" }) none 64 none noProbes
        ⟨"unknown-host.", "", ""⟩ []).auto_name = "unknown-host" ∧
    (surveyRecord allFlagsOn "LAN" "192.168.1.7"
        (some { emptyEntry with name := "Router1" }) none 64 none noProbes
        ⟨"unknown-host.", "", ""⟩ []).source = "rdns" ∧
    ¬(surveyRecord allFlagsOn "LAN" "192.168.1.7"
        (some { emptyEntry with name := "Router1" }) none 64 none noProbes
        ⟨"unknown-host.", "", ""⟩ []).source = "manual" := by
  decide

/-- C1 amended: for a record whose name is non-empty at finalization, the
reported source is manual exactly when the naming chain produced nothing
(source still `none`); when a chain step succeeded, its tag is reported
unchanged even though the persisted name wins for display. -/
theorem claim_C1_amended (r : HostRecord) (hname : r.name ≠ "") :
    (finalizeRecord r).source = if r.source = "none" then "manual" else r.source := by
  have h1 : fillNameFromAuto r = r := by
    unfold fillNameFromAuto
    rw [if_neg]
    simp [hname]
  unfold finalizeRecord markManual
  rw [h1]
  by_cases hs : r.source = "none" <;> simp [hname, hs]

/-- C1 amended witness: a named record whose chain source is rdns keeps
rdns. -/
theorem claim_C1_amended_witness :
    (finalizeRecord { (default : HostRecord) with name := "x", source := "rdns" }).source
      = if ({ (default : HostRecord) with name := "x", source := "rdns" } : HostRecord).source = "none"
        then "manual"
        else ({ (default : HostRecord) with name := "x", source := "rdns" } : HostRecord).source :=
  claim_C1_amended { (default : HostRecord) with name := "x", source := "rdns" } (by decide)

/-- C6: with every naming flag enabled, the naming pass selects exactly one
(auto_name, source) pair by trying reverse DNS, mDNS, NetBIOS, the
HTTP-derived name, certificate CN, certificate SAN and the SSH banner in
that fixed order, stopping at the first step whose normalized name is
non-empty, and falling back to an empty name with source `none`; in
particular a successful reverse-DNS step decides the pair regardless of
every other probe's value. -/
theorem claim_C6 (o : SurveyOptions) (np : NamingProbes)
    (sm : List (String × List String)) (r : HostRecord)
    (h1 : o.dnsEnabled = true) (h2 : o.mdnsEnabled = true)
    (h3 : o.netbiosEnabled = true) (h4 : o.httpTitleEnabled = true)
    (h5 : o.certCnEnabled = true) (h6 : o.sshBannerEnabled = true) :
    ((resolveNaming o np sm r).auto_name, (resolveNaming o np sm r).source) =
      (if normalizeName np.rdns ≠ "" then (normalizeName np.rdns, "rdns")
       else if normalizeName np.mdnsRaw ≠ "" then (normalizeName np.mdnsRaw, "mdns")
       else if normalizeName np.netbios ≠ "" then (normalizeName np.netbios, "netbios")
       else if normalizeName r.http_name ≠ "" then (normalizeName r.http_name, "http")
       else if normalizeName r.cert_cn ≠ "" then (normalizeName r.cert_cn, "cert")
       else if normalizeName r.cert_san ≠ "" then (normalizeName r.cert_san, "cert")
       else if normalizeName r.ssh_banner ≠ "" then (normalizeName r.ssh_banner, "ssh")
       else ("", "none")) := by
  have ehttp : r.http_name ≠ "" ∧ normalizeName r.http_name ≠ "" ↔ normalizeName r.http_name ≠ "" :=
    ⟨fun h => h.2, fun h => ⟨fun he => h (by rw [he]; rfl), h⟩⟩
  have ecn : r.cert_cn ≠ "" ∧ normalizeName r.cert_cn ≠ "" ↔ normalizeName r.cert_cn ≠ "" :=
    ⟨fun h => h.2, fun h => ⟨fun he => h (by rw [he]; rfl), h⟩⟩
  have esan : r.cert_san ≠ "" ∧ normalizeName r.cert_san ≠ "" ↔ normalizeName r.cert_san ≠ "" :=
    ⟨fun h => h.2, fun h => ⟨fun he => h (by rw [he]; rfl), h⟩⟩
  have essh : r.ssh_banner ≠ "" ∧ normalizeName r.ssh_banner ≠ "" ↔ normalizeName r.ssh_banner ≠ "" :=
    ⟨fun h => h.2, fun h => ⟨fun he => h (by rw [he]; rfl), h⟩⟩
  unfold resolveNaming namingChain
  simp only [h1, h2, h3, h4, h5, h6, true_and, mdnsAttach_http_name, mdnsAttach_cert_cn,
    mdnsAttach_cert_san, mdnsAttach_ssh_banner, ehttp, ecn, esan, essh]
  repeat' split
  all_goals simp_all

/-- C6 witness: with a successful reverse-DNS probe the chain reports the
rdns pair. -/
theorem claim_C6_witness :
    ((resolveNaming allFlagsOn ⟨"host1.example.", "", ""⟩ [] default).auto_name,
     (resolveNaming allFlagsOn ⟨"host1.example.", "", ""⟩ [] default).source) =
      (if normalizeName (NamingProbes.mk "host1.example." "" "").rdns ≠ "" then
        (normalizeName (NamingProbes.mk "host1.example." "" "").rdns, "rdns")
       else if normalizeName (NamingProbes.mk "host1.example." "" "").mdnsRaw ≠ "" then
        (normalizeName (NamingProbes.mk "host1.example." "" "").mdnsRaw, "mdns")
       else if normalizeName (NamingProbes.mk "host1.example." "" "").netbios ≠ "" then
        (normalizeName (NamingProbes.mk "host1.example." "" "").netbios, "netbios")
       else if normalizeName (default : HostRecord).http_name ≠ "" then
        (normalizeName (default : HostRecord).http_name, "http")
       else if normalizeName (default : HostRecord).cert_cn ≠ "" then
        (normalizeName (default : HostRecord).cert_cn, "cert")
       else if normalizeName (default : HostRecord).cert_san ≠ "" then
        (normalizeName (default : HostRecord).cert_san, "cert")
       else if normalizeName (default : HostRecord).ssh_banner ≠ "" then
        (normalizeName (default : HostRecord).ssh_banner, "ssh")
       else ("", "none")) :=
  claim_C6 allFlagsOn ⟨"host1.example.", "", ""⟩ [] default rfl rfl rfl rfl rfl rfl

/-- C10: when the persisted entry seeds a non-empty ssh_banner, smb_banner,
cert pair, favicon_hash or snmp pair into a host's record, the enrichment
pass skips the corresponding probe (the emitted field equals the seeded
value for every possible probe outcome, so the probe's result is never
consulted) and no later stage of the cycle overwrites it. -/
theorem claim_C10 (o : SurveyOptions) (seg ip : String) (e : SpaceEntry)
    (mac : Option String) (ttl : Nat) (ssdp : Option (String × String))
    (ep : EnrichProbes) (np : NamingProbes) (sm : List (String × List String)) :
    (e.ssh_banner ≠ "" →
      (surveyRecord o seg ip (some e) mac ttl ssdp ep np sm).ssh_banner = e.ssh_banner) ∧
    (e.smb_banner ≠ "" →
      (surveyRecord o seg ip (some e) mac ttl ssdp ep np sm).smb_banner = e.smb_banner) ∧
    ((e.cert_cn ≠ "" ∨ e.cert_san ≠ "") →
      (surveyRecord o seg ip (some e) mac ttl ssdp ep np sm).cert_cn = e.cert_cn ∧
      (surveyRecord o seg ip (some e) mac ttl ssdp ep np sm).cert_san = e.cert_san) ∧
    (e.favicon_hash ≠ "" →
      (surveyRecord o seg ip (some e) mac ttl ssdp ep np sm).favicon_hash = e.favicon_hash) ∧
    ((e.snmp_sysname ≠ "" ∨ e.snmp_sysdescr ≠ "") →
      (surveyRecord o seg ip (some e) mac ttl ssdp ep np sm).snmp_sysname = e.snmp_sysname ∧
      (surveyRecord o seg ip (some e) mac ttl ssdp ep np sm).snmp_sysdescr = e.snmp_sysdescr) := by
  refine ⟨fun h => ?_, fun h => ?_, fun h => ?_, fun h => ?_, fun h => ?_⟩
  · have hseed : (makeRecord seg ip (some e) mac ttl).ssh_banner = e.ssh_banner := by
      simp [makeRecord, orS_empty_right]
    have hs : (enrichOs o (applySsdp ssdp (makeRecord seg ip (some e) mac ttl))).ssh_banner
        = e.ssh_banner := by simp [hseed]
    simp [surveyRecord, finalizeRecord, enrichRecord, hseed,
      enrichSsh_skip _ _ _ (by rw [hs]; exact h), hs]
  · have hseed : (makeRecord seg ip (some e) mac ttl).smb_banner = e.smb_banner := by
      simp [makeRecord, orS_empty_right]
    have hs : (enrichSsh o ep (enrichOs o (applySsdp ssdp
        (makeRecord seg ip (some e) mac ttl)))).smb_banner = e.smb_banner := by
      simp [hseed]
    simp [surveyRecord, finalizeRecord, enrichRecord, hseed,
      enrichSmb_skip _ _ _ (by rw [hs]; exact h), hs]
  · have hseedcn : (makeRecord seg ip (some e) mac ttl).cert_cn = e.cert_cn := by
      simp [makeRecord, orS_empty_right]
    have hseedsan : (makeRecord seg ip (some e) mac ttl).cert_san = e.cert_san := by
      simp [makeRecord, orS_empty_right]
    have hcn : (enrichSmb o ep (enrichSsh o ep (enrichOs o (applySsdp ssdp
        (makeRecord seg ip (some e) mac ttl))))).cert_cn = e.cert_cn := by
      simp [hseedcn]
    have hsan : (enrichSmb o ep (enrichSsh o ep (enrichOs o (applySsdp ssdp
        (makeRecord seg ip (some e) mac ttl))))).cert_san = e.cert_san := by
      simp [hseedsan]
    have hsk := enrichCert_skip o ep (enrichSmb o ep (enrichSsh o ep (enrichOs o (applySsdp ssdp
        (makeRecord seg ip (some e) mac ttl)))))
      (by rw [hcn, hsan]; exact h)
    constructor
    · simp [surveyRecord, finalizeRecord, enrichRecord, hseedcn, hsk.1, hcn]
    · simp [surveyRecord, finalizeRecord, enrichRecord, hseedsan, hsk.2, hsan]
  · have hseed : (makeRecord seg ip (some e) mac ttl).favicon_hash = e.favicon_hash := by
      simp [makeRecord, orS_empty_right]
    have hs : (enrichHttp o ep (enrichCert o ep (enrichSmb o ep (enrichSsh o ep (enrichOs o
        (applySsdp ssdp (makeRecord seg ip (some e) mac ttl))))))).favicon_hash
        = e.favicon_hash := by
      simp [hseed]
    simp [surveyRecord, finalizeRecord, enrichRecord, hseed,
      enrichFavicon_skip _ _ _ (by rw [hs]; exact h), hs]
  · have hseedn : (makeRecord seg ip (some e) mac ttl).snmp_sysname = e.snmp_sysname := by
      simp [makeRecord, orS_empty_right]
    have hseedd : (makeRecord seg ip (some e) mac ttl).snmp_sysdescr = e.snmp_sysdescr := by
      simp [makeRecord, orS_empty_right]
    have hn : (enrichFavicon o ep (enrichHttp o ep (enrichCert o ep (enrichSmb o ep (enrichSsh o ep
        (enrichOs o (applySsdp ssdp (makeRecord seg ip (some e) mac ttl)))))))).snmp_sysname
        = e.snmp_sysname := by
      simp [hseedn]
    have hd : (enrichFavicon o ep (enrichHttp o ep (enrichCert o ep (enrichSmb o ep (enrichSsh o ep
        (enrichOs o (applySsdp ssdp (makeRecord seg ip (some e) mac ttl)))))))).snmp_sysdescr
        = e.snmp_sysdescr := by
      simp [hseedd]
    have hsk := enrichSnmp_skip o ep (enrichFavicon o ep (enrichHttp o ep (enrichCert o ep
        (enrichSmb o ep (enrichSsh o ep (enrichOs o (applySsdp ssdp
          (makeRecord seg ip (some e) mac ttl))))))))
      (by rw [hn, hd]; exact h)
    constructor
    · simp [surveyRecord, finalizeRecord, enrichRecord, hseedn, hsk.1, hn]
    · simp [surveyRecord, finalizeRecord, enrichRecord, hseedd, hsk.2, hd]

/-- C10 witness: a seeded SSH banner survives the cycle even though the
probe would have answered differently. -/
theorem claim_C10_witness :
    (surveyRecord allFlagsOn "LAN" "10.0.0.9" (some c10Entry) none 0 none c10Probes
      ⟨"", "", ""⟩ []).ssh_banner = c10Entry.ssh_banner :=
  (claim_C10 allFlagsOn "LAN" "10.0.0.9" c10Entry none 0 none c10Probes
    ⟨"", "", ""⟩ []).1 (by decide)

/-- C5 counterexample: enumerating 192.168.1.0/30 does not give the two
addresses the claim names: the exclusion of network and broadcast applies
only at prefix lengths at most 24, and 30 is above that bound. -/
theorem claim_C5_counterexample :
    enumerateHosts (ipToInt "192.168.1.0") 30 ≠ ["192.168.1.1", "192.168.1.2"] := by
  decide

/-- C5 amended: enumerating 192.168.1.0/30 yields the full four-address
block including both boundary addresses. -/
theorem claim_C5_amended :
    enumerateHosts (ipToInt "192.168.1.0") 30 =
      ["192.168.1.0", "192.168.1.1", "192.168.1.2", "192.168.1.3"] := by
  decide
example : intToIp 3232235777 = "192.168.1.1" := by decide
example : enumerateHosts (ipToInt "10.0.0.0") 31 = ["10.0.0.0", "10.0.0.1"] := by decide
example : enumerateHosts (ipToInt "10.0.0.5") 32 = ["10.0.0.5"] := by decide
example : enumerateHosts (ipToInt "192.168.1.0") 30 =
    ["192.168.1.0", "192.168.1.1", "192.168.1.2", "192.168.1.3"] := by decide
example : enumerateHosts (ipToInt "0.0.0.0") 0 = [] := by decide
example : normalizeName " host.local. " = "host" := by decide
example : normalizeName "DNS:foo.example.com, DNS:bar" = "foo.example.com" := by decide
example : csvEscape "a\",b" = "\"a\"\",b\"" := by decide

/-- C3: the reconciler's merge: for each IP observed this cycle with an
existing entry, the persisted name is kept unless empty (then filled from
the cycle's name/auto_name), `segments` becomes the current segment's name
exactly when segment-label overwrite is enabled (cycle records always carry
a non-empty segment name), and every other field takes the cycle's value
when non-empty and otherwise keeps the persisted value; IPs not observed
this cycle keep their entries unchanged; and the serialized output is the
header plus one row per merged IP, with the keys sorted ascending by 32-bit
address integer (a permutation of all merged keys, no key repeated). -/
theorem claim_C3 (spaceMap : List (String × SpaceEntry))
    (recordMap : List (String × HostRecord)) (sFS : Bool)
    (hnr : (recordMap.map Prod.fst).Nodup)
    (hns : (spaceMap.map Prod.fst).Nodup)
    (hseg : ∀ kv ∈ recordMap, (kv.2 : HostRecord).segment ≠ "") :
    (∀ ip r e, (ip, r) ∈ recordMap → mapGet spaceMap ip = some e →
      ∃ m, mapGet (mergeFold sFS spaceMap recordMap) ip = some m ∧
          (e.name ≠ "" → m.name = e.name) ∧
          (e.name = "" → m.name = (if r.name = "" then r.auto_name else r.name)) ∧
          (sFS = true → m.segments = r.segment) ∧
          (sFS = false → m.segments = e.segments) ∧
          m.auto_name = (if r.auto_name = "" then e.auto_name else r.auto_name) ∧
          m.mac = (if r.mac = "" then e.mac else r.mac) ∧
          m.os_guess = (if r.os_guess = "" then e.os_guess else r.os_guess) ∧
          m.ssh_banner = (if r.ssh_banner = "" then e.ssh_banner else r.ssh_banner) ∧
          m.smb_banner = (if r.smb_banner = "" then e.smb_banner else r.smb_banner) ∧
          m.cert_cn = (if r.cert_cn = "" then e.cert_cn else r.cert_cn) ∧
          m.cert_san = (if r.cert_san = "" then e.cert_san else r.cert_san) ∧
          m.http_server = (if r.http_server = "" then e.http_server else r.http_server) ∧
          m.http_powered_by = (if r.http_powered_by = "" then e.http_powered_by else r.http_powered_by) ∧
          m.http_www_auth = (if r.http_www_auth = "" then e.http_www_auth else r.http_www_auth) ∧
          m.favicon_hash = (if r.favicon_hash = "" then e.favicon_hash else r.favicon_hash) ∧
          m.mdns_services = (if r.mdns_services = "" then e.mdns_services else r.mdns_services) ∧
          m.ssdp_server = (if r.ssdp_server = "" then e.ssdp_server else r.ssdp_server) ∧
          m.ssdp_usn = (if r.ssdp_usn = "" then e.ssdp_usn else r.ssdp_usn) ∧
          m.snmp_sysname = (if r.snmp_sysname = "" then e.snmp_sysname else r.snmp_sysname) ∧
          m.snmp_sysdescr = (if r.snmp_sysdescr = "" then e.snmp_sysdescr else r.snmp_sysdescr)) ∧
    (∀ ip, ip ∉ recordMap.map Prod.fst →
      mapGet (mergeFold sFS spaceMap recordMap) ip = mapGet spaceMap ip) ∧
    (updateSpaceCsv spaceMap recordMap sFS =
      joinSep "\n" (spaceHeader ::
        (sortIpKeys ((mergeFold sFS spaceMap recordMap).map Prod.fst)).map
          (fun ip => entryRow ip
            ((mapGet (mergeFold sFS spaceMap recordMap) ip).getD emptyEntry))) ++ "\n") ∧
    (sortIpKeys ((mergeFold sFS spaceMap recordMap).map Prod.fst)).Sorted ipLe ∧
    (sortIpKeys ((mergeFold sFS spaceMap recordMap).map Prod.fst)).Perm
      ((mergeFold sFS spaceMap recordMap).map Prod.fst) ∧
    ((mergeFold sFS spaceMap recordMap).map Prod.fst).Nodup := by
  refine ⟨?_, fun ip h => mergeFold_get_of_not_mem sFS spaceMap recordMap ip h, rfl,
    List.sorted_insertionSort _ _, List.perm_insertionSort _ _,
    mergeFold_keys_nodup sFS _ _ hns⟩
  intro ip r e hmem hsm
  have hm := mergeFold_get_of_mem sFS spaceMap recordMap ip r hmem hnr
  rw [hsm] at hm
  exact ⟨_, hm, mergeStep_some sFS e r (hseg (ip, r) hmem)⟩


/-- C3 witness: an IP absent from the cycle's record map keeps its persisted
entry. -/
theorem claim_C3_witness :
    mapGet (mergeFold true c3Space c3Records) "10.0.0.2" = mapGet c3Space "10.0.0.2" :=
  (claim_C3 c3Space c3Records true (by decide) (by decide) (by decide)).2.1
    "10.0.0.2" (by decide)

set_option maxRecDepth 10000 in
/-- C7 evaluation at the failing input: the serializer escapes the name
`a",b` to the quoted doubled-quote form `"a"",b"` (the claim's first half
holds), but the program's own inventory parser splits rows on every literal
comma and never unescapes quotes, so parsing the rewritten file back yields
the mangled name `"a""` instead of the original string. -/
theorem claim_C7_eval :
    csvEscape "a\",b" = "\"a\"\",b\"" ∧
    ((parseSpaceCsv (updateSpaceCsv
        [("10.0.0.1", { emptyEntry with name := "a\",b" })] [] false)).bind
      (fun m => mapGet m "10.0.0.1")).map SpaceEntry.name = some "\"a\"\"" ∧
    ¬((parseSpaceCsv (updateSpaceCsv
        [("10.0.0.1", { emptyEntry with name := "a\",b" })] [] false)).bind
      (fun m => mapGet m "10.0.0.1")).map SpaceEntry.name = some "a\",b" := by
  decide

/-- C4 amended: for every network address below 2^32 and every prefix length
from 1 to 32, host enumeration behaves as the claim states: prefix 32 yields
the single given address, prefix 31 the two boundary addresses, prefixes up
to 24 the block's range excluding exactly the network and broadcast
addresses, and prefixes 25-30 the full range including both boundaries. The
claim's prefix-0 case is excluded: there the code returns the empty list
(see the counterexample). -/
theorem claim_C4_amended (n p : Nat) (hn : n < 2 ^ 32) (hp1 : 1 ≤ p) (hp2 : p ≤ 32) :
    enumerationSpec n p := by
  have hbb_le := blockBase_le n p hn
  have hbb_lt : blockBase n p < 2 ^ 32 := lt_of_le_of_lt hbb_le hn
  have htop := blockTop_lt n p hn hp2
  have h2k1 : (1 : Nat) ≤ 2 ^ (32 - p) := Nat.one_le_two_pow
  refine ⟨?_, ?_, ?_, ?_⟩
  · intro h32
    subst h32
    simp [enumerateHosts]
  · intro h31
    subst h31
    simp only [enumerateHosts]
    rw [if_neg (by norm_num : ¬(31 : Nat) = 32)]
    simp only [if_true]
    rw [jsAnd_mask n 31 hn (by norm_num) (by norm_num),
      jsOr_broadcast n 31 hn (by norm_num) (by norm_num)]
    have h21 : blockBase n 31 + 2 ^ (32 - 31) - 1 = blockBase n 31 + 1 := by
      norm_num
    rw [h21]
    rw [intToIp_congr (i32 ((blockBase n 31 : Nat) : Int)) ((blockBase n 31 : Nat) : Int)
        (u32_i32 _),
      intToIp_congr (i32 ((blockBase n 31 + 1 : Nat) : Int)) ((blockBase n 31 + 1 : Nat) : Int)
        (u32_i32 _)]
  · intro hple
    have hk8 : (256 : Nat) ≤ 2 ^ (32 - p) := by
      calc (256 : Nat) = 2 ^ 8 := by norm_num
        _ ≤ 2 ^ (32 - p) := Nat.pow_le_pow_right (by norm_num) (by omega)
    simp only [enumerateHosts]
    rw [if_neg (by omega : ¬p = 32), if_neg (by omega : ¬p = 31), if_pos hple,
      jsAnd_mask n p hn hp1 hp2, jsOr_broadcast n p hn hp1 hp2,
      i32_natCast_eq _ hbb_lt, i32_natCast_eq _ htop]
    by_cases hc : 2 ^ 31 ≤ blockBase n p
    · rw [if_pos hc, if_pos (by omega : 2 ^ 31 ≤ blockBase n p + 2 ^ (32 - p) - 1)]
      exact enumerate_loop _ _ (blockBase n p + 1) (2 ^ (32 - p) - 2) (2 ^ 32)
        (Or.inr rfl) (by omega) (by omega) (by omega) (by omega)
    · push_neg at hc
      rw [if_neg (by omega : ¬2 ^ 31 ≤ blockBase n p),
        if_neg (not_le.2 (blockHalf n p hn hp1 hp2 hc))]
      exact enumerate_loop _ _ (blockBase n p + 1) (2 ^ (32 - p) - 2) 0
        (Or.inl rfl) (by omega) (by omega) (by omega) (by omega)
  · intro hp25 hp30
    have hk2 : (4 : Nat) ≤ 2 ^ (32 - p) := by
      calc (4 : Nat) = 2 ^ 2 := by norm_num
        _ ≤ 2 ^ (32 - p) := Nat.pow_le_pow_right (by norm_num) (by omega)
    simp only [enumerateHosts]
    rw [if_neg (by omega : ¬p = 32), if_neg (by omega : ¬p = 31),
      if_neg (by omega : ¬p ≤ 24),
      jsAnd_mask n p hn hp1 hp2, jsOr_broadcast n p hn hp1 hp2,
      i32_natCast_eq _ hbb_lt, i32_natCast_eq _ htop]
    by_cases hc : 2 ^ 31 ≤ blockBase n p
    · rw [if_pos hc, if_pos (by omega : 2 ^ 31 ≤ blockBase n p + 2 ^ (32 - p) - 1)]
      exact enumerate_loop _ _ (blockBase n p) (2 ^ (32 - p)) (2 ^ 32)
        (Or.inr rfl) (by omega) (by omega) (by omega) (by omega)
    · push_neg at hc
      rw [if_neg (by omega : ¬2 ^ 31 ≤ blockBase n p),
        if_neg (not_le.2 (blockHalf n p hn hp1 hp2 hc))]
      exact enumerate_loop _ _ (blockBase n p) (2 ^ (32 - p)) 0
        (Or.inl rfl) (by omega) (by omega) (by omega) (by omega)

/-- C4 counterexample: at prefix 0 the claim fails. The signed 32-bit OR
that computes the broadcast address turns 2^32 - 1 into -1, so the loop
bounds are start = 1 > stop = -2 and enumeration returns the empty list,
although the block's range minus its two boundary addresses has 2^32 - 2
members. -/
theorem claim_C4_counterexample : ¬enumerationSpec 0 0 := by
  intro h
  have h24 := h.2.2.1 (by norm_num)
  have hnil : enumerateHosts ((0 : Nat) : Int) 0 = [] := by decide
  rw [hnil] at h24
  have hlen := congrArg List.length h24
  simp [List.length_range'] at hlen

/-- C4 witness: the amended claim applied to 192.168.1.0/31. -/
theorem claim_C4_witness : enumerationSpec 3232235776 31 :=
  claim_C4_amended 3232235776 31 (by norm_num) (by norm_num) (by norm_num)

/-- C8 (amended): reconciliation is idempotent on clean data: when every
merged key is a distinct valid IP and every merged field value is free of
comma, quote and line breaks and stable under trim, the serialized output
parses back and a second reconciliation with the identical cycle records
reproduces the bytes of the first. The original unconditional claim is
refuted by claim_C8_counterexample. -/
theorem claim_C8_amended (spaceMap : List (String × SpaceEntry))
    (rm : List (String × HostRecord)) (sFS : Bool)
    (hmapnd : (spaceMap.map Prod.fst).Nodup)
    (hrmnd : (rm.map Prod.fst).Nodup)
    (hclean : ∀ kv ∈ mergeFold sFS spaceMap rm,
        cleanField kv.1 ∧ isValidIp kv.1 = true ∧ cleanEntry kv.2) :
    ∃ m1, parseSpaceCsv (updateSpaceCsv spaceMap rm sFS) = some m1 ∧
      updateSpaceCsv m1 rm sFS = updateSpaceCsv spaceMap rm sFS := by
  have hmnd : ((mergeFold sFS spaceMap rm).map Prod.fst).Nodup :=
    mergeFold_keys_nodup sFS spaceMap rm hmapnd
  have hperm : List.Perm (sortIpKeys ((mergeFold sFS spaceMap rm).map Prod.fst))
      ((mergeFold sFS spaceMap rm).map Prod.fst) :=
    List.perm_insertionSort ipLe _
  have hSnodup : (sortIpKeys ((mergeFold sFS spaceMap rm).map Prod.fst)).Nodup :=
    hperm.nodup_iff.2 hmnd
  have hval : ∀ ip ∈ sortIpKeys ((mergeFold sFS spaceMap rm).map Prod.fst),
      ∃ v, mapGet (mergeFold sFS spaceMap rm) ip = some v := by
    intro ip hip
    exact mapGet_isSome_of_mem _ ip (hperm.mem_iff.1 hip)
  have hSclean : ∀ ip ∈ sortIpKeys ((mergeFold sFS spaceMap rm).map Prod.fst),
      cleanField ip ∧ isValidIp ip = true ∧
        cleanEntry ((mapGet (mergeFold sFS spaceMap rm) ip).getD emptyEntry) := by
    intro ip hip
    obtain ⟨v, hv⟩ := hval ip hip
    have hmem := mapGet_mem _ ip v hv
    have := hclean (ip, v) hmem
    rw [hv]
    exact this
  have happly := parseSpaceCsv_out (sortIpKeys ((mergeFold sFS spaceMap rm).map Prod.fst))
    (fun ip => (mapGet (mergeFold sFS spaceMap rm) ip).getD emptyEntry)
    hSclean hSnodup
  refine ⟨(sortIpKeys ((mergeFold sFS spaceMap rm).map Prod.fst)).map
    (fun ip => (ip, (mapGet (mergeFold sFS spaceMap rm) ip).getD emptyEntry)), ?_, ?_⟩
  · rw [updateSpaceCsv_eq]
    exact happly
  · have hm1keys : ((sortIpKeys ((mergeFold sFS spaceMap rm).map Prod.fst)).map
        (fun ip => (ip, (mapGet (mergeFold sFS spaceMap rm) ip).getD emptyEntry))).map
          Prod.fst = sortIpKeys ((mergeFold sFS spaceMap rm).map Prod.fst) := by
      rw [List.map_map]
      rw [show (Prod.fst ∘ fun ip =>
        (ip, (mapGet (mergeFold sFS spaceMap rm) ip).getD emptyEntry)) = id from rfl]
      exact List.map_id _
    have hm1get : ∀ k, mapGet ((sortIpKeys ((mergeFold sFS spaceMap rm).map Prod.fst)).map
        (fun ip => (ip, (mapGet (mergeFold sFS spaceMap rm) ip).getD emptyEntry))) k =
          mapGet (mergeFold sFS spaceMap rm) k := by
      intro k
      by_cases hk : k ∈ (mergeFold sFS spaceMap rm).map Prod.fst
      · obtain ⟨v, hv⟩ := mapGet_isSome_of_mem _ k hk
        rw [mapGet_tabulate _ _ k (hperm.mem_iff.2 hk), hv]
        simp [hv]
      · rw [mapGet_tabulate_not_mem _ _ k (fun hc => hk (hperm.mem_iff.1 hc)),
          mapGet_not_mem _ k hk]
    have hfix : ∀ kv ∈ rm, ∃ x, mapGet (mergeFold sFS spaceMap rm) kv.1 =
        some (mergeStep sFS x kv.2) := by
      intro kv hkv
      exact ⟨mapGet spaceMap kv.1,
        mergeFold_get_of_mem sFS spaceMap rm kv.1 kv.2 hkv hrmnd⟩
    have hsecond := mergeFold_second sFS rm _ _ hm1get hfix
    have hrmsub : ∀ kv ∈ rm, kv.1 ∈ ((sortIpKeys ((mergeFold sFS spaceMap rm).map Prod.fst)).map
        (fun ip => (ip, (mapGet (mergeFold sFS spaceMap rm) ip).getD emptyEntry))).map
          Prod.fst := by
      intro kv hkv
      rw [hm1keys]
      exact hperm.mem_iff.2 (mergeFold_keys_superset sFS rm spaceMap kv hkv)
    have hkeys2 := mergeFold_keys_of_subset sFS rm _ hrmsub
    rw [hm1keys] at hkeys2
    have hsorted : sortIpKeys (sortIpKeys ((mergeFold sFS spaceMap rm).map Prod.fst)) =
        sortIpKeys ((mergeFold sFS spaceMap rm).map Prod.fst) :=
      List.Sorted.insertionSort_eq (List.sorted_insertionSort ipLe _)
    rw [updateSpaceCsv_eq, updateSpaceCsv_eq, hkeys2, hsorted]
    refine congrArg (fun t => joinSep "\n" (spaceHeader :: t) ++ "\n") ?_
    refine List.map_congr_left ?_
    intro ip hip
    rw [hsecond ip]

set_option maxRecDepth 10000 in
/-- C8 (counterexample): with an empty persisted inventory and a single
cycle record whose auto_name holds a comma, the first reconciliation's
output parses back to a shifted map, and a second reconciliation with the
identical cycle records emits different bytes. -/
theorem claim_C8_counterexample :
    (parseSpaceCsv (updateSpaceCsv [] c8Records false)).map
        (fun m1 => updateSpaceCsv m1 c8Records false) ≠
      some (updateSpaceCsv [] c8Records false) := by
  decide

/-- C8 witness: a concrete clean inventory and record map at which the
amended idempotence theorem's hypotheses all hold. -/
theorem claim_C8_witness :
    ∃ m1, parseSpaceCsv (updateSpaceCsv c8wSpace c8wRecords true) = some m1 ∧
      updateSpaceCsv m1 c8wRecords true = updateSpaceCsv c8wSpace c8wRecords true :=
  claim_C8_amended c8wSpace c8wRecords true (by decide) (by decide)
    (by decide)

end Lanscape
